import Mathlib

/-!
Verification of the nsaph-epa data acquisition toolkit.

This file is a shallow embedding, in Lean 4, of the parts of the
repository `quantori/nsaph-epa` that the verified properties talk about:

* `src/python/epa/__init__.py` — record-key generation (`add_record_num`);
* `src/python/epa/aqs_tools.py` — AQS task planning
  (`collect_aqs_download_tasks`) and the AQS download loop (`download_data`);
* `src/python/epa/airnow_downloader.py` — the AirNow downloader
  (`get_content`, `process`, `check_sites`, `add_monitor_key`,
  `download`, `download_range`);
* `src/python/epa/airnow_gis.py` — the GIS point-in-polygon annotator
  (`GISAnnotator.join` and its helpers).

Python strings are modelled as lists of Unicode code points (`Str`),
machine integers as `Nat`/`Int`, raised exceptions as `Option`/`Except`
error values, and the file system as explicit state records.
-/

namespace Epa

/-- Strings are modelled as lists of Unicode code points. -/
abbrev Str := List Nat

/-- Code point of the dash character `-`. -/
def dashC : Nat := 45

/-- Code point of the digit `0`. -/
def zeroC : Nat := 48

/-- Code point of the underscore character `_`. -/
def underC : Nat := 95

/-- Structural helper for `digitsN`; the fuel bounds the recursion depth
and is irrelevant as long as it is at least the argument. -/
def digitsAux : Nat → Nat → Str
  | 0, n => [zeroC + n % 10]
  | fuel + 1, n =>
    if n < 10 then [zeroC + n] else digitsAux fuel (n / 10) ++ [zeroC + n % 10]

/-- Decimal rendering of a natural number, as produced by Python
`"{:d}".format(n)` (no sign, no padding). -/
def digitsN (n : Nat) : Str := digitsAux n n

/-- Numeric value of a decimal digit string (left fold, most significant
digit first). -/
def valD (s : Str) : Nat := s.foldl (fun a c => a * 10 + (c - zeroC)) 0

/-- Zero padding to width `w`, as Python `"{:0wd}"`: pads with `0` on the
left when the rendering is shorter than `w`, leaves it alone otherwise. -/
def padZ (w : Nat) (s : Str) : Str := List.replicate (w - s.length) zeroC ++ s

/-- The Record key format `RECORD_NUM_FORMAT = "{:d}-{:010d}"` from
`epa/__init__.py`: the year, a dash, and the sequence number zero-padded
to (at least) 10 digits. This is the key `add_record_num` stores in the
`Record` column, with the year taken from the row's `Year`, `Date Local`
or `UTC` column. -/
def recordKey (year idx : Nat) : Str :=
  digitsN year ++ dashC :: padZ 10 (digitsN idx)

/-- The digit substring after the first dash of a key. -/
def seqPart (s : Str) : Str := (s.dropWhile (fun c => c != dashC)).drop 1

/-- The digit substring before the first dash of a key. -/
def yearPart (s : Str) : Str := s.takeWhile (fun c => c != dashC)

/-- The sequence-number component of a Record key. -/
def decodeSeq (s : Str) : Nat := valD (seqPart s)

/-- The year component of a Record key. -/
def decodeYear (s : Str) : Nat := valD (yearPart s)

namespace Aqs

/-- Time aggregation granularity (`Aggregation` in `epa/aqs_ds_def.py`). -/
inductive Aggregation
  | annual
  | daily
deriving DecidableEq, Repr

/-- The fields of `AQSContext` consumed by `collect_aqs_download_tasks`:
the aggregation granularity, the (integer) EPA AQS parameter codes, the
requested years and the merge flag. -/
structure AQSContext where
  aggregation : Aggregation
  parameters : List Nat
  years : List Int
  merge_years : Bool
deriving DecidableEq, Repr

/-- A `DownloadTask` produced by the planner. Destination paths and URL
strings are abstracted to the data they encode: the year of each URL (in
order), the parameter encoded in daily URLs, and the `metadata` parameter
filter attached to annual tasks (`None` for daily tasks). -/
structure DownloadTask where
  urlYears : List Int
  urlParameter : Option Nat
  metadata : Option (List Nat)
deriving DecidableEq, Repr

/-- Python exceptions escaping `collect_aqs_download_tasks`: the
`assert len(parameters) > 0` failure and the `years[0]` IndexError. -/
inductive PyErr
  | assertionError
  | indexError
deriving DecidableEq, Repr

/-- Embedding of `collect_annual_downloads` (aqs_tools.py lines 207-233):
one task whose URL list has one entry per year of the segment, carrying
the (sorted) requested parameter codes as its `metadata` filter. -/
def collect_annual_downloads (segment : List Int) (parameters : List Nat) :
    DownloadTask :=
  { urlYears := segment, urlParameter := none, metadata := some parameters }

/-- Embedding of `collect_daily_downloads` (aqs_tools.py lines 235-263):
one task per (segment, parameter), URLs templated by the parameter, no
`metadata` filter. -/
def collect_daily_downloads (segment : List Int) (parameter : Nat) :
    DownloadTask :=
  { urlYears := segment, urlParameter := some parameter, metadata := none }

/-- The segmentation loop of `collect_aqs_download_tasks` (aqs_tools.py
lines 287-294), written as a recursion over the remaining sorted years:
`prev` is the previously seen year, `cur` the segment under construction,
`acc` the completed segments. A year extends the current segment exactly
when merging is on and it is the successor of the previous year. -/
def segLoop (merge : Bool) (prev : Int) (cur : List Int) (acc : List (List Int)) :
    List Int → List (List Int)
  | [] => acc ++ [cur]
  | y :: ys =>
    if merge && (prev == y - 1) then segLoop merge y (cur ++ [y]) acc ys
    else segLoop merge y [y] (acc ++ [cur]) ys

/-- The `contiguous_years` value computed by `collect_aqs_download_tasks`
from the sorted year list. The source starts with `segment = [years[0]]`,
which raises `IndexError` when the year list is empty (`none` here). -/
def contiguous_years (merge : Bool) : List Int → Option (List (List Int))
  | [] => none
  | y :: ys => some (segLoop merge y [y] [] ys)

/-- The tasks appended for one year segment (aqs_tools.py lines 300-315):
annual aggregation emits one task for the segment; daily aggregation
emits one task per sorted parameter. -/
def tasksOfSegment (agg : Aggregation) (parameters : List Nat)
    (segment : List Int) : List DownloadTask :=
  match agg with
  | .annual => [collect_annual_downloads segment parameters]
  | .daily => parameters.map (collect_daily_downloads segment)

/-- Embedding of `collect_aqs_download_tasks` (aqs_tools.py lines
266-316): assert parameters for daily aggregation, sort the years,
partition them into `contiguous_years` segments, sort the parameters, and
emit the tasks segment by segment. -/
def collect_aqs_download_tasks (context : AQSContext) :
    Except PyErr (List DownloadTask) :=
  if context.aggregation = .daily ∧ context.parameters = [] then
    .error .assertionError
  else
    match contiguous_years context.merge_years context.years.mergeSort with
    | none => .error .indexError
    | some segs =>
      let parameters := context.parameters.mergeSort
      .ok (segs.foldl
        (fun acc seg => acc ++ tasksOfSegment context.aggregation parameters seg)
        [])

/-- One row of an AQS CSV file, restricted to the columns the code reads:
`State Code`, `County Code`, `Site Num`, `Parameter Code`, `Year`; `value`
stands in for the remaining data columns. -/
structure AqsRow where
  state : Str
  county : Nat
  site : Nat
  parameter : Nat
  year : Nat
  value : Int
deriving DecidableEq, Repr

/-- An output row of the AQS flow: the input row plus the added `Monitor`
and `Record` columns. -/
structure AqsOutRow where
  row : AqsRow
  monitor : Str
  record : Str
deriving DecidableEq, Repr

/-- The AQS monitor format `MONITOR_FORMAT = "{state}{county:03d}-{site:04d}"`
(aqs_tools.py line 52). -/
def MONITOR_FORMAT (state : Str) (county site : Nat) : Str :=
  state ++ padZ 3 (digitsN county) ++ dashC :: padZ 4 (digitsN site)

/-- Embedding of `add_monitor_key` in aqs_tools.py (lines 85-96). -/
def add_monitor_key (row : AqsRow) : Str :=
  MONITOR_FORMAT row.state row.county row.site

/-- Embedding of `add_more_columns` (aqs_tools.py lines 77-79) for the
record with the given (already incremented) global record index. -/
def add_more_columns (idx : Nat) (row : AqsRow) : AqsOutRow :=
  { row := row, monitor := add_monitor_key row, record := recordKey row.year idx }

/-- The write loop of `write_csv`: each written row increments the global
record index and receives the added columns. -/
def addColumnsAll (startIdx : Nat) : List AqsRow → List AqsOutRow
  | [] => []
  | r :: rest => add_more_columns (startIdx + 1) r :: addColumnsAll (startIdx + 1) rest

/-- Rows written by `transfer` (aqs_tools.py lines 57-74) for one URL:
rows passing the parameter filter, each given the added columns with the
global record index threaded through. Returns the written rows and the
new record index. -/
def transferRows (flt : Option (AqsRow → Bool)) (startIdx : Nat)
    (rows : List AqsRow) : List AqsOutRow × Nat :=
  let kept := match flt with
    | none => rows
    | some f => rows.filter f
  (addColumnsAll startIdx kept, startIdx + kept.length)

/-- The parameter filter built by `download_data` (aqs_tools.py lines
188-191): a filter on the `Parameter Code` column when `task.metadata` is
a non-empty list, no filter otherwise (`if parameters:`). -/
def taskFilter (task : DownloadTask) : Option (AqsRow → Bool) :=
  match task.metadata with
  | some (p :: ps) => some (fun row => decide (row.parameter ∈ p :: ps))
  | _ => none

/-- The URL loop of `download_data`, appending the transferred rows of
each fetched content in order, threading the record index. -/
def download_dataLoop (flt : Option (AqsRow → Bool)) :
    Nat → List (List AqsRow) → List AqsOutRow × Nat
  | startIdx, [] => ([], startIdx)
  | startIdx, content :: rest =>
    let out := transferRows flt startIdx content
    let next := download_dataLoop flt out.2 rest
    (out.1 ++ next.1, next.2)

/-- The rows `download_data` (aqs_tools.py lines 152-193) appends to the
task's destination, given the parsed CSV content of each of the task's
URLs (in order) and the starting value of the global record index. -/
def download_data_written (task : DownloadTask) (contents : List (List AqsRow))
    (startIdx : Nat) : List AqsOutRow × Nat :=
  download_dataLoop (taskFilter task) startIdx contents

end Aqs

/-- Trace of one bounded retry loop: how many tries were issued, the
durations of the sleeps performed between them (in order), and the final
outcome (the content obtained, or the exception that escaped the loop). -/
structure RetryTrace (ε α : Type) where
  attempts : Nat
  sleeps : List Nat
  outcome : Except ε α

namespace AirNow

/-- `AirNowDownloader.max_attempts` (airnow_downloader.py line 61). -/
def max_attempts : Nat := 5

/-- `AirNowDownloader.time_to_sleep_between_attempts` (line 62). -/
def time_to_sleep_between_attempts : Nat := 10

/-- The retry loop of `AirNowDownloader.get_content` (airnow_downloader.py
lines 171-185), run against an abstract schedule `tries` giving the
outcome of the k-th call (0-based) to `as_content`. On failure the
attempt counter is incremented; while it stays below `max_attempts` the
loop sleeps 10 seconds and retries, otherwise the exception is re-raised. -/
def get_contentAux (tries : Nat → Except ε α) : Nat → Nat → RetryTrace ε α
  | attempts, fuel =>
    match tries attempts, fuel with
    | .ok content, _ => { attempts := 1, sleeps := [], outcome := .ok content }
    | .error x, 0 => { attempts := 1, sleeps := [], outcome := .error x }
    | .error x, fuel + 1 =>
      if attempts + 1 < max_attempts then
        let t := get_contentAux tries (attempts + 1) fuel
        { attempts := t.attempts + 1,
          sleeps := time_to_sleep_between_attempts :: t.sleeps,
          outcome := t.outcome }
      else
        { attempts := 1, sleeps := [], outcome := .error x }

/-- `AirNowDownloader.get_content` enters the loop with `attempts = 0`;
the fuel `max_attempts` covers the whole loop, so the fuel-exhausted
branch is never taken. -/
def get_content (tries : Nat → Except ε α) : RetryTrace ε α :=
  get_contentAux tries 0 max_attempts

end AirNow

namespace Aqs

/-- The retry loop inside `download_data` (aqs_tools.py lines 171-181):
on failure the attempt counter is incremented and the exception re-raised
as soon as it exceeds 3; there is no sleep between attempts. -/
def download_dataRetryAux (tries : Nat → Except ε α) : Nat → Nat → RetryTrace ε α
  | attempt, fuel =>
    match tries attempt, fuel with
    | .ok r, _ => { attempts := 1, sleeps := [], outcome := .ok r }
    | .error x, 0 => { attempts := 1, sleeps := [], outcome := .error x }
    | .error x, fuel + 1 =>
      if attempt + 1 > 3 then { attempts := 1, sleeps := [], outcome := .error x }
      else
        let t := download_dataRetryAux tries (attempt + 1) fuel
        { attempts := t.attempts + 1, sleeps := t.sleeps, outcome := t.outcome }

/-- The `download_data` retry loop enters with `attempt = 0`; the fuel 4
covers the whole loop, so the fuel-exhausted branch is never taken. -/
def download_dataRetry (tries : Nat → Except ε α) : RetryTrace ε α :=
  download_dataRetryAux tries 0 4

end Aqs

namespace AirNow

/-- An AirNow site identifier (the `FullAQSCode` column), which pandas
may deliver as an integer or as a string. -/
inductive SiteId
  | int (n : Nat)
  | str (s : Str)
deriving DecidableEq, Repr

/-- The geography attributes cached per site by `check_sites`: the values
of the `GIS_COLUMNS` returned by the annotator, with pandas `NaN`
replaced by `None` (airnow_downloader.py lines 329-334). -/
structure SiteAttrs where
  ZCTA : Option Str := none
  STATE : Option Str := none
  FIPS5 : Option Str := none
  STATEFP : Option Str := none
  COUNTYFP : Option Str := none
  COUNTY : Option Str := none
  STUSPS : Option Str := none
deriving DecidableEq, Repr

/-- One aggregated per-site row of a day's AirNow response (one row of
the `aggregated` frame in `process`): the site code, the observation year
(extracted by `add_record_num` from the row's UTC timestamp column), and
an aggregated value standing in for the data columns. -/
structure AggRow where
  site : SiteId
  year : Nat
  value : Int
deriving DecidableEq, Repr

/-- An output row appended to the destination file by `download`:
the aggregated columns, the merged geography attributes, and the added
`Record` and `Monitor` columns. -/
structure OutRow where
  site : SiteId
  year : Nat
  value : Int
  attrs : SiteAttrs
  record : Str
  monitor : Str
deriving DecidableEq, Repr

/-- The AirNow monitor format
`MONITOR_FORMAT = "{state}-{fips:05d}-{site}"` (airnow_downloader.py
line 51). -/
def MONITOR_FORMAT (state : Str) (fips : Nat) (site : Str) : Str :=
  state ++ dashC :: padZ 5 (digitsN fips) ++ dashC :: site

/-- Embedding of `AirNowDownloader.add_monitor_key` (lines 295-310):
a falsy (`None` or empty) STATE becomes `"__"`, a falsy FIPS5 becomes
`0` (then rendered 5-digit zero-padded via `int(fips5)`), and an integer
site identifier is rendered via `"{:09d}"`. -/
def add_monitor_key (attrs : SiteAttrs) (site : SiteId) : Str :=
  let state := match attrs.STATE with
    | none => [underC, underC]
    | some s => if s.isEmpty then [underC, underC] else s
  let fips : Nat := match attrs.FIPS5 with
    | none => 0
    | some f => if f.isEmpty then 0 else valD f
  let siteStr := match site with
    | .int n => padZ 9 (digitsN n)
    | .str s => s
  MONITOR_FORMAT state fips siteStr

/-- The downloader's mutable state: the per-run `record_index`, the
`sites` cache (an insertion-ordered map from site to cached geography),
and the contents of the destination file. -/
structure DState where
  record_index : Nat
  sites : List (SiteId × SiteAttrs)
  file : List OutRow
deriving DecidableEq, Repr

/-- Lookup in the sites cache (`site in self.sites` / `self.sites[site]`). -/
def lookupSite : List (SiteId × SiteAttrs) → SiteId → Option SiteAttrs
  | [], _ => none
  | (k, v) :: rest, s => if k = s then some v else lookupSite rest s

/-- Embedding of `AirNowDownloader.check_sites` (lines 318-338): every
site of the day's frame that is not yet cached is annotated through the
GIS annotator (abstracted here by `geo`, the per-site result of the
left spatial join with `NaN` mapped to `None`) and stored in the cache;
already-cached sites are left untouched. -/
def check_sites (geo : SiteId → SiteAttrs) (rows : List AggRow)
    (sites : List (SiteId × SiteAttrs)) : List (SiteId × SiteAttrs) :=
  rows.foldl
    (fun m r =>
      if (lookupSite m r.site).isSome then m
      else m ++ [(r.site, geo r.site)])
    sites

/-- The row loop of `AirNowDownloader.process` (lines 282-292): for each
aggregated row in order: skip it when its site is not in the cache
(`continue`), otherwise merge the cached geography into the record,
increment `record_index`, add the `Record` key (`add_record_num`) and
the `Monitor` key, and collect the record. -/
def processRows (sites : List (SiteId × SiteAttrs)) :
    Nat → List AggRow → List OutRow × Nat
  | idx, [] => ([], idx)
  | idx, r :: rest =>
    match lookupSite sites r.site with
    | none => processRows sites idx rest
    | some attrs =>
      let out := processRows sites (idx + 1) rest
      ({ site := r.site, year := r.year, value := r.value,
         attrs := attrs,
         record := recordKey r.year (idx + 1),
         monitor := add_monitor_key attrs r.site } :: out.1, out.2)

/-- Embedding of `AirNowDownloader.process` (lines 259-293) from the
aggregated frame on: refresh the sites cache via `check_sites`, then run
the row loop. Returns the collected rows and the updated state. -/
def process (geo : SiteId → SiteAttrs) (aggregated : List AggRow) (st : DState) :
    List OutRow × DState :=
  let sites := check_sites geo aggregated st.sites
  let out := processRows sites st.record_index aggregated
  (out.1, { st with sites := sites, record_index := out.2 })

/-- The exception raised by `download` for a day whose processed row list
is empty (line 219: `raise Exception("Empty response for " + date)`). -/
inductive DayErr
  | emptyResponse
deriving DecidableEq, Repr

/-- Embedding of `AirNowDownloader.download` (lines 194-232) for one
day's aggregated content, with a file target: process the merged
content; if no rows were produced, raise before touching the file;
otherwise append the rows to the destination. (The JSON and CSV branches
append the same rows; the CSV header pre-pass does not alter data rows.) -/
def download (geo : SiteId → SiteAttrs) (aggregated : List AggRow)
    (st : DState) : DState × Option DayErr :=
  let out := process geo aggregated st
  if out.1.isEmpty then (out.2, some .emptyResponse)
  else ({ out.2 with file := out.2.file ++ out.1 }, none)

/-- Embedding of `AirNowDownloader.download_range` (lines 340-368), with
calendar dates modelled as integer day numbers and the remote service
abstracted by `contents`, the aggregated rows served for each day: the
loop downloads the current day first, then breaks if it has reached
`end_date`, else advances one day (the rate-limit sleep does not affect
the data flow). An exception from `download` propagates, leaving the
state as already flushed. -/
def download_rangeAux (geo : SiteId → SiteAttrs) (contents : Int → List AggRow) :
    Nat → Int → Int → DState → DState × Option DayErr
  | fuel, start_date, end_date, st =>
    match download geo (contents start_date) st, fuel with
    | (st', some e), _ => (st', some e)
    | (st', none), 0 => (st', none)
    | (st', none), fuel + 1 =>
      if start_date ≥ end_date then (st', none)
      else download_rangeAux geo contents fuel (start_date + 1) end_date st'

/-- `download_range` with the fuel `(end_date - start_date).toNat`, which
is exactly the number of day advances the loop performs, so the
fuel-exhausted branch is never taken. -/
def download_range (geo : SiteId → SiteAttrs) (contents : Int → List AggRow)
    (start_date end_date : Int) (st : DState) : DState × Option DayErr :=
  download_rangeAux geo contents (end_date - start_date).toNat start_date end_date st

/-- Structural helper for `daysOf`. -/
def daysOfAux : Nat → Int → Int → List Int
  | fuel, s, e =>
    if s ≥ e then [s]
    else match fuel with
      | 0 => [s]
      | fuel + 1 => s :: daysOfAux fuel (s + 1) e

/-- The days visited by `download_range`: the current day, then the rest
while the bound has not been reached. -/
def daysOf (start_date end_date : Int) : List Int :=
  daysOfAux (end_date - start_date).toNat start_date end_date

/-- One step of a sequential multi-day run: once an exception has been
raised it propagates, otherwise the next day is downloaded. -/
def runStep (geo : SiteId → SiteAttrs) (contents : Int → List AggRow)
    (acc : DState × Option DayErr) (d : Int) : DState × Option DayErr :=
  match acc with
  | (st', some e) => (st', some e)
  | (st', none) => download geo (contents d) st'

/-- Sequential download of an explicit list of days, stopping at the
first raised exception (the reference fold for `download_range`). -/
def runDays (geo : SiteId → SiteAttrs) (contents : Int → List AggRow)
    (days : List Int) (st : DState) : DState × Option DayErr :=
  days.foldl (runStep geo contents) (st, none)

/-- The inclusive integer interval `[s, t]` as a list. -/
def intRange (s t : Int) : List Int :=
  (List.range (t - s + 1).toNat).map (fun i : Nat => s + (i : Int))

end AirNow

namespace Gis

/-- The geography column names known to `airnow_gis.py`. -/
inductive GisCol
  | ZCTA
  | STATEFP
  | COUNTYFP
  | COUNTY
  | STUSPS
  | STATEISO
  | STATE
  | FIPS5
deriving DecidableEq, Repr

/-- `ZIP_COLUMNS = {"ZCTA"}` (airnow_gis.py line 39). -/
def ZIP_COLUMNS : List GisCol := [.ZCTA]

/-- `COUNTY_COLUMNS = {"STATEFP", "COUNTYFP"}` (line 40). -/
def COUNTY_COLUMNS : List GisCol := [.STATEFP, .COUNTYFP]

/-- The calculated columns, in the order `_add_calculated_columns`
computes them (lines 203-235). -/
def CALC_ORDER : List GisCol := [.COUNTY, .FIPS5, .STATE, .STUSPS, .STATEISO]

/-- A coordinate column value; `none` models NaN / missing. -/
abbrev Coord := Option Int

/-- A zip/ZCTA shape layer, modelled as the spatial-match lookup it
supports: the `ZCTA` values of all polygons whose geometry intersects a
concrete point, in shape-file row order. `geopandas.sjoin` matches with
the `intersects` predicate, so a point on a shared boundary of adjacent
polygons, or inside overlapping polygons of a user-supplied layer, can
match more than one polygon. -/
def ZipLayer : Type := Int → Int → List Str

/-- A county shape layer: the `(STATEFP, COUNTYFP)` pairs of all
polygons whose geometry intersects a concrete point. -/
def CountyLayer : Type := Int → Int → List (Str × Str)

/-- Spatial matches of the `Point(x, y)` geometry built from
possibly-missing coordinates: a point with a NaN coordinate intersects
no polygon, so it simply fails to match. -/
def lookupPt (layer : Int → Int → List β) (x y : Coord) : List β :=
  match x, y with
  | some a, some b => layer a b
  | _, _ => []

/-- A shape file as `_load_shape_files` (lines 168-184) classifies it by
schema: a `ZIP` column, a `ZCTA5CE10` column, a `STATEFP`+`COUNTYFP`
pair, or anything else (ignored). -/
inductive ShapeFile
  | zipfile (l : ZipLayer)
  | zcta (l : ZipLayer)
  | county (l : CountyLayer)
  | other

/-- One input point row: an opaque payload standing in for the caller's
columns, and the two coordinate columns used for the join. -/
structure PtRow where
  payload : Nat
  x : Coord
  y : Coord
deriving DecidableEq, Repr

/-- A data-frame row during annotation: the input row plus the values of
the geography columns added so far (`none` value = NaN from a missed
join). -/
structure GRow where
  base : PtRow
  cols : List (GisCol × Option Str)
deriving DecidableEq, Repr

/-- A data frame: the geography columns present (`df.columns` beyond the
input's own columns) and the rows. -/
structure Frame where
  added : List GisCol
  rows : List GRow
deriving DecidableEq, Repr

/-- An incoming batch of points as a frame. -/
def Frame.ofPoints (pts : List PtRow) : Frame :=
  { added := [], rows := pts.map (fun p => { base := p, cols := [] }) }

/-- The `GISAnnotator` state: configured shape files and requested
columns, the lazily loaded layers, and the `states.csv` lookup table
(modelled as a total `STATEFP` to `STUSPS` map — the table covers every
state FIPS code occurring in census shape files). -/
structure GISAnnotator where
  shape_files : List ShapeFile
  columns : List GisCol
  zip_shapes : Option ZipLayer := none
  county_shapes : Option CountyLayer := none
  states : Str → Str

/-- Embedding of `_load_shape_files` (lines 168-184): a no-op when a
layer is already loaded, otherwise classify every configured file by its
schema (later files of the same schema overwrite earlier ones). -/
def load_shape_files (a : GISAnnotator) : GISAnnotator :=
  if a.zip_shapes.isSome || a.county_shapes.isSome then a
  else
    a.shape_files.foldl
      (fun acc f =>
        match f with
        | .zipfile l => { acc with zip_shapes := some l }
        | .zcta l => { acc with zip_shapes := some l }
        | .county l => { acc with county_shapes := some l }
        | .other => acc)
      a

/-- Errors raised inside `join`: the two `ValueError`s of
`_check_columns` (lines 161-166), and the length-mismatch `ValueError`
pandas raises at line 199 when the spatial join emitted more rows than
there are input geometries. -/
inductive GisErr
  | zipMissing
  | countyMissing
  | lengthMismatch
deriving DecidableEq, Repr

/-- Embedding of `_check_columns` (lines 161-166). -/
def check_columns (a : GISAnnotator) : Except GisErr Unit :=
  if a.columns.inter ZIP_COLUMNS ≠ [] ∧ a.zip_shapes.isNone then
    .error .zipMissing
  else if a.columns.inter COUNTY_COLUMNS ≠ [] ∧ a.county_shapes.isNone then
    .error .countyMissing
  else .ok ()

/-- The value one matched zip polygon contributes for one requested
column. -/
def zipValue (m : Str) (c : GisCol) : Option Str :=
  match c with
  | .ZCTA => some m
  | _ => none

/-- The value one matched county polygon contributes for one requested
column. -/
def countyValue (m : Str × Str) (c : GisCol) : Option Str :=
  match c with
  | .STATEFP => some m.1
  | .COUNTYFP => some m.2
  | _ => none

/-- The match column `geopandas.sjoin(points, shape, how='left')`
produces for one input point: one `none` entry when the point matches no
polygon (its single output row carries NaN shape columns), and one
`some` entry per matching polygon otherwise (the input row is
duplicated). -/
def sjoinMatches {μ : Type} (ms : List μ) : List (Option μ) :=
  match ms with
  | [] => [none]
  | ms => ms.map some

/-- The rows of `geopandas.sjoin(points, shape, how='left')` (line 195):
every input row in order, each paired with its matches, and duplicated
when it matches several polygons. -/
def sjoinPts {μ : Type} (mf : GRow → List μ) : List GRow → List (GRow × Option μ)
  | [] => []
  | r :: rest => (sjoinMatches (mf r)).map (fun m => (r, m)) ++ sjoinPts mf rest

/-- Embedding of `_add_shape_columns` (lines 186-201): left spatial join
of the frame's points against one layer (line 195), then a rebuild of
the frame from the joined rows keeping the frame's columns plus the
requested columns available from this layer (lines 198-199). When some
point matched more than one polygon the joined frame has more rows than
the `geometry` list built from the input, and the `GeoDataFrame`
constructor at line 199 raises a length-mismatch `ValueError`; otherwise
every input row is retained (in order), an unmatched point yielding NaN
for the new columns. -/
def add_shape_columns {μ : Type} (mf : GRow → List μ) (value : μ → GisCol → Option Str)
    (shape_columns : List GisCol) (requested : List GisCol) (f : Frame) :
    Except GisErr Frame :=
  let pts := sjoinPts mf f.rows
  let newCols := requested.inter shape_columns
  if pts.length = f.rows.length then
    .ok { added := f.added ++ newCols, rows := pts.map (fun rm => { rm.1 with cols := rm.1.cols ++ newCols.map (fun c => (c, rm.2.bind (fun m => value m c))) }) }
  else .error .lengthMismatch

/-- Lookup of an added column's value in a row (`none` = column absent;
`some none` = column present with NaN). -/
def lookupCol : List (GisCol × Option Str) → GisCol → Option (Option Str)
  | [], _ => none
  | (k, v) :: rest, c => if k = c then some v else lookupCol rest c

/-- The value of an added column in a row, with absence and NaN collapsed
to `none`. -/
def colValue (r : GRow) (c : GisCol) : Option Str :=
  (lookupCol r.cols c).getD none

/-- The value `_add_calculated_columns` computes for one calculated
column of one row (lines 207-235): the concatenation `STATEFP + COUNTYFP`
for COUNTY and FIPS5, the state FIPS for STATE, and the `states.csv`
`STUSPS` for STUSPS / `"US-" + STUSPS` for STATEISO — each `None` when
the row's STATEFP is NaN. -/
def calcValue (states : Str → Str) (r : GRow) (c : GisCol) : Option Str :=
  let st := colValue r .STATEFP
  let ct := colValue r .COUNTYFP
  match c with
  | .COUNTY => (match st, ct with
    | some s, some cv => some (s ++ cv)
    | _, _ => none)
  | .FIPS5 => (match st, ct with
    | some s, some cv => some (s ++ cv)
    | _, _ => none)
  | .STATE => st
  | .STUSPS => st.map states
  | .STATEISO => st.map (fun s => [85, 83, dashC] ++ states s)
  | _ => none

/-- Embedding of `_add_calculated_columns` (lines 203-235): a no-op when
the `STATEFP` column is absent from the frame; otherwise each requested
calculated column is appended to every row. -/
def add_calculated_columns (a : GISAnnotator) (f : Frame) : Frame :=
  if .STATEFP ∈ f.added then
    let newCols := CALC_ORDER.filter (fun c => c ∈ a.columns)
    { added := f.added ++ newCols,
      rows := f.rows.map
        (fun r =>
          { r with cols := r.cols ++ newCols.map (fun c => (c, calcValue a.states r c)) }) }
  else f

/-- Observable side effects of one `join` call: how many shape files were
read from disk and how many spatial joins were performed. -/
structure JoinLog where
  loads : Nat
  sjoins : Nat
deriving DecidableEq, Repr

/-- The zip-layer block of `join` (lines 151-152): one spatial join
against the zip layer when it is loaded, else a no-op. Returns the frame
and the number of spatial joins performed, or propagates the
length-mismatch `ValueError`. -/
def zipStage (a : GISAnnotator) (f : Frame) : Except GisErr (Frame × Nat) :=
  match a.zip_shapes with
  | some l =>
    match add_shape_columns (fun r => lookupPt l r.base.x r.base.y) zipValue ZIP_COLUMNS a.columns f with
    | .ok f2 => .ok (f2, 1)
    | .error e => .error e
  | none => .ok (f, 0)

/-- The county-layer block of `join` (lines 154-155). -/
def countyStage (a : GISAnnotator) (f : Frame) : Except GisErr (Frame × Nat) :=
  match a.county_shapes with
  | some l =>
    match add_shape_columns (fun r => lookupPt l r.base.x r.base.y) countyValue COUNTY_COLUMNS a.columns f with
    | .ok f2 => .ok (f2, 1)
    | .error e => .error e
  | none => .ok (f, 0)

/-- Embedding of `GISAnnotator.join` (lines 133-159): return the frame
unchanged when it has no rows (lines 143-144), otherwise lazily load the
shape files, check the requested columns against the loaded layers, join
against the zip layer and then the county layer when present (either
join propagating the length-mismatch `ValueError` when a point matched
several polygons), and finally compute the calculated columns. Returns
the annotated frame, the updated annotator, and the effect log. -/
def join (a : GISAnnotator) (f : Frame) :
    Except GisErr (Frame × GISAnnotator × JoinLog) :=
  if f.rows.isEmpty then .ok (f, a, { loads := 0, sjoins := 0 })
  else
    let loaded : Nat :=
      if a.zip_shapes.isSome || a.county_shapes.isSome then 0
      else a.shape_files.length
    let a' := load_shape_files a
    match check_columns a' with
    | .error e => .error e
    | .ok _ =>
      match zipStage a' f with
      | .error e => .error e
      | .ok z =>
        match countyStage a' z.1 with
        | .error e => .error e
        | .ok w =>
          let f3 := add_calculated_columns a' w.1
          .ok (f3, a', { loads := loaded, sjoins := z.2 + w.2 })

end Gis

/-! ## Concrete fixtures used by witness theorems -/

/-- A fetch schedule on which every attempt fails, the k-th attempt
raising the exception `k` (so which failure propagated is observable). -/
def failSchedule : Nat → Except Nat Unit := fun k => .error k

/-- An annotation in which no site resolves to any geography. -/
def geoNone : AirNow.SiteId → AirNow.SiteAttrs := fun _ => {}

/-- A fresh downloader state: `record_index = 0`, empty site cache,
empty destination file. -/
def freshState : AirNow.DState := { record_index := 0, sites := [], file := [] }

/-- A one-row day content: day 0 has one reading, all later days are
empty. -/
def contentsW : Int → List AirNow.AggRow :=
  fun d => if d = 0 then [{ site := .int 1, year := 2020, value := 3 }] else []

/-- A concrete zip layer with a single polygon of `ZCTA` value `"1"`,
intersecting exactly the point (38, -100). -/
def zlayerW : Gis.ZipLayer :=
  fun x y => if x = 38 ∧ y = -100 then [[zeroC + 1]] else []

/-- A concrete annotator configured with the one zip shape file and the
requested column `ZCTA`. -/
def gisaW : Gis.GISAnnotator :=
  { shape_files := [.zipfile zlayerW], columns := [.ZCTA], states := fun _ => [] }

/-- A concrete zip layer with two overlapping polygons, of `ZCTA` values
`"1"` and `"2"`: the point (38, -100) lies in both (e.g. on their shared
boundary, which the `intersects` predicate matches on either side). -/
def zlayerX : Gis.ZipLayer :=
  fun x y => if x = 38 ∧ y = -100 then [[zeroC + 1], [zeroC + 2]] else []

/-- A concrete annotator configured with the overlapping zip shape file
and the requested column `ZCTA`. -/
def gisaX : Gis.GISAnnotator :=
  { shape_files := [.zipfile zlayerX], columns := [.ZCTA], states := fun _ => [] }

/-- A non-empty one-point batch whose point intersects two polygons of
`zlayerX`. -/
def frameX : Gis.Frame :=
  Gis.Frame.ofPoints [{ payload := 0, x := some 38, y := some (-100) }]

/-- A concrete input batch: one point inside the test polygon, one point
with a NaN coordinate. -/
def frameW : Gis.Frame :=
  Gis.Frame.ofPoints [{ payload := 0, x := some 38, y := some (-100) },
                      { payload := 1, x := none, y := some 50 }]

/-- The expected output of `join gisaW frameW`: both rows kept in order,
the matched point annotated `ZCTA = "1"`, the NaN point annotated null;
one shape file loaded, one spatial join performed. -/
def resW : Gis.Frame × Gis.GISAnnotator × Gis.JoinLog :=
  ({ added := [.ZCTA],
     rows := [{ base := { payload := 0, x := some 38, y := some (-100) },
                cols := [(.ZCTA, some [zeroC + 1])] },
              { base := { payload := 1, x := none, y := some 50 },
                cols := [(.ZCTA, none)] }] },
   { gisaW with zip_shapes := some zlayerW },
   { loads := 1, sjoins := 1 })

/-! ## Properties of the decimal rendering and the Record key format -/

theorem digitsAux_congr : ∀ {n fuel fuel' : Nat}, n ≤ fuel → n ≤ fuel' →
    digitsAux fuel n = digitsAux fuel' n := by
  intro n
  induction n using Nat.strong_induction_on with
  | _ n ih =>
    intro fuel fuel' hf hf'
    match fuel, fuel' with
    | 0, 0 => rfl
    | 0, fuel' + 1 =>
      have : n = 0 := by omega
      subst this
      simp [digitsAux]
    | fuel + 1, 0 =>
      have : n = 0 := by omega
      subst this
      simp [digitsAux]
    | fuel + 1, fuel' + 1 =>
      by_cases h10 : n < 10
      · simp [digitsAux, h10]
      · have hlt : n / 10 < n := Nat.div_lt_self (by omega) (by omega)
        have h1 : n / 10 ≤ fuel := by omega
        have h2 : n / 10 ≤ fuel' := by omega
        simp only [digitsAux, h10, if_false]
        rw [ih (n / 10) hlt h1 h2]

theorem digitsN_eq (n : Nat) :
    digitsN n = if n < 10 then [zeroC + n]
      else digitsN (n / 10) ++ [zeroC + n % 10] := by
  rcases n with _ | m
  · simp [digitsN, digitsAux]
  · by_cases h10 : m + 1 < 10
    · simp [digitsN, digitsAux, h10]
    · have hle : (m + 1) / 10 ≤ m := by
        have := Nat.div_lt_self (show 0 < m + 1 by omega) (show 1 < 10 by omega)
        omega
      simp only [digitsN, digitsAux, h10, if_false]
      rw [digitsAux_congr hle (Nat.le_refl _)]

theorem valD_append_digit (l : Str) (c : Nat) :
    valD (l ++ [c]) = valD l * 10 + (c - zeroC) := by
  simp [valD, List.foldl_append]

theorem valD_digitsN (n : Nat) : valD (digitsN n) = n := by
  induction n using Nat.strong_induction_on with
  | _ n ih =>
    rw [digitsN_eq]
    by_cases h : n < 10
    · simp [h, valD]
    · simp only [h, if_false, valD_append_digit]
      rw [ih (n / 10) (Nat.div_lt_self (by omega) (by omega))]
      omega

theorem valD_replicate_zero_append (k : Nat) (l : Str) :
    valD (List.replicate k zeroC ++ l) = valD l := by
  induction k with
  | zero => simp
  | succ k ih =>
    simpa [List.replicate_succ, valD] using ih

theorem valD_padZ (w : Nat) (s : Str) : valD (padZ w s) = valD s :=
  valD_replicate_zero_append _ _

theorem digitsN_mem_bound {n c : Nat} (h : c ∈ digitsN n) :
    zeroC ≤ c ∧ c ≤ zeroC + 9 := by
  induction n using Nat.strong_induction_on with
  | _ n ih =>
    rw [digitsN_eq] at h
    by_cases h10 : n < 10
    · simp [h10] at h
      omega
    · simp only [h10, if_false, List.mem_append, List.mem_singleton] at h
      rcases h with h | h
      · exact ih (n / 10) (Nat.div_lt_self (by omega) (by omega)) h
      · omega

theorem digitsN_ne_nil (n : Nat) : digitsN n ≠ [] := by
  rw [digitsN_eq]
  by_cases h : n < 10 <;> simp [h]

theorem digitsN_length_le {n k : Nat} (hk : 1 ≤ k) (h : n < 10 ^ k) :
    (digitsN n).length ≤ k := by
  induction k generalizing n with
  | zero => omega
  | succ k ih =>
    rw [digitsN_eq]
    by_cases h10 : n < 10
    · simp [h10]
    · simp only [h10, if_false, List.length_append, List.length_singleton]
      have hk1 : 1 ≤ k := by
        rcases Nat.eq_zero_or_pos k with hk0 | hk0
        · subst hk0
          norm_num at h
          omega
        · omega
      have : n / 10 < 10 ^ k := by
        rw [Nat.div_lt_iff_lt_mul (by omega)]
        calc n < 10 ^ (k + 1) := h
        _ = 10 ^ k * 10 := by ring
      have := ih hk1 this
      omega

theorem padZ_length {w : Nat} {s : Str} (h : s.length ≤ w) :
    (padZ w s).length = w := by
  simp [padZ]
  omega

theorem padZ_mem {w : Nat} {s : Str} {c : Nat} (h : c ∈ padZ w s) :
    c = zeroC ∨ c ∈ s := by
  simp only [padZ, List.mem_append, List.mem_replicate] at h
  tauto

theorem digitsN_ne_dash {n c : Nat} (h : c ∈ digitsN n) : (c != dashC) = true := by
  have := digitsN_mem_bound h
  simp [dashC, zeroC] at this ⊢
  omega

theorem padZ_digits_ne_dash {w n c : Nat} (h : c ∈ padZ w (digitsN n)) :
    (c != dashC) = true := by
  rcases padZ_mem h with h | h
  · subst h
    simp [dashC, zeroC]
  · exact digitsN_ne_dash h

theorem takeWhile_append_dash {l t : Str} {p : Nat → Bool}
    (hl : ∀ c ∈ l, p c = true) (hd : p dashC = false) :
    (l ++ dashC :: t).takeWhile p = l := by
  induction l with
  | nil => simp [List.takeWhile, hd]
  | cons a l ih =>
    have ha : p a = true := hl a (by simp)
    simp only [List.cons_append, List.takeWhile_cons, ha, if_true]
    rw [ih (fun c hc => hl c (by simp [hc]))]

theorem dropWhile_append_dash {l t : Str} {p : Nat → Bool}
    (hl : ∀ c ∈ l, p c = true) (hd : p dashC = false) :
    (l ++ dashC :: t).dropWhile p = dashC :: t := by
  induction l with
  | nil => simp [List.dropWhile, hd]
  | cons a l ih =>
    have ha : p a = true := hl a (by simp)
    simp only [List.cons_append, List.dropWhile_cons, ha, if_true]
    exact ih (fun c hc => hl c (by simp [hc]))

theorem yearPart_recordKey (y s : Nat) : yearPart (recordKey y s) = digitsN y := by
  unfold yearPart recordKey
  exact takeWhile_append_dash (fun c hc => digitsN_ne_dash hc) (by simp)

theorem seqPart_recordKey (y s : Nat) :
    seqPart (recordKey y s) = padZ 10 (digitsN s) := by
  unfold seqPart recordKey
  rw [dropWhile_append_dash (fun c hc => digitsN_ne_dash hc) (by simp)]
  simp

theorem decodeSeq_recordKey (y s : Nat) : decodeSeq (recordKey y s) = s := by
  rw [decodeSeq, seqPart_recordKey, valD_padZ, valD_digitsN]

theorem decodeYear_recordKey (y s : Nat) : decodeYear (recordKey y s) = y := by
  rw [decodeYear, yearPart_recordKey, valD_digitsN]

theorem recordKey_inj {y1 s1 y2 s2 : Nat}
    (h : recordKey y1 s1 = recordKey y2 s2) : y1 = y2 ∧ s1 = s2 := by
  constructor
  · have := congrArg decodeYear h
    rwa [decodeYear_recordKey, decodeYear_recordKey] at this
  · have := congrArg decodeSeq h
    rwa [decodeSeq_recordKey, decodeSeq_recordKey] at this

/-! ## C7 — join on an empty batch -/

/-- C7: for every input data frame with zero rows, `GISAnnotator.join`
returns that input unchanged, leaves the annotator state untouched,
loads no shape layer and performs no spatial join. -/
theorem c7_join_empty_identity (a : Gis.GISAnnotator) (f : Gis.Frame)
    (h : f.rows = []) :
    Gis.join a f = .ok (f, a, { loads := 0, sjoins := 0 }) := by
  unfold Gis.join
  simp [h]

/-- Witness for C7 at a concrete annotator and the empty frame. -/
theorem c7_witness :
    ({ added := [], rows := [] } : Gis.Frame).rows = []
    ∧ Gis.join gisaW { added := [], rows := [] } =
        .ok ({ added := [], rows := [] }, gisaW, { loads := 0, sjoins := 0 }) :=
  ⟨rfl, c7_join_empty_identity gisaW { added := [], rows := [] } rfl⟩

/-! ## C9 — monitor keys for unresolved geography -/

/-- C9: `AirNowDownloader.add_monitor_key` produces a Monitor key instead
of failing on unresolved geography: a missing or empty STATE is replaced
by the literal `"__"`, a missing or empty FIPS5 is replaced by `0`
(rendered `"00000"` after 5-digit zero-padding), and an integer site
identifier is zero-padded to 9 digits, so a fully unresolved site yields
a key of the form `"__-00000-{site}"`. -/
theorem c9_add_monitor_key_unresolved (attrs : AirNow.SiteAttrs) (n : Nat)
    (hs : attrs.STATE = none ∨ attrs.STATE = some [])
    (hf : attrs.FIPS5 = none ∨ attrs.FIPS5 = some []) :
    AirNow.add_monitor_key attrs (.int n) =
      [underC, underC] ++ dashC :: List.replicate 5 zeroC
        ++ dashC :: padZ 9 (digitsN n)
    ∧ (n < 10 ^ 9 → (padZ 9 (digitsN n)).length = 9) := by
  constructor
  · have h5 : padZ 5 (digitsN 0) = List.replicate 5 zeroC := by decide
    rcases hs with hs | hs <;> rcases hf with hf | hf <;>
      simp [AirNow.add_monitor_key, AirNow.MONITOR_FORMAT, hs, hf, h5]
  · intro hlt
    exact padZ_length (digitsN_length_le (by omega) hlt)

/-- Witness for C9 at a concrete attribute record and site `7`. -/
theorem c9_witness :
    (({ STATE := none, FIPS5 := some [] } : AirNow.SiteAttrs).STATE = none
      ∨ ({ STATE := none, FIPS5 := some [] } : AirNow.SiteAttrs).STATE = some [])
    ∧ AirNow.add_monitor_key { STATE := none, FIPS5 := some [] } (.int 7) =
        [underC, underC] ++ dashC :: List.replicate 5 zeroC
          ++ dashC :: padZ 9 (digitsN 7) :=
  ⟨Or.inl rfl,
    (c9_add_monitor_key_unresolved { STATE := none, FIPS5 := some [] } 7
      (Or.inl rfl) (Or.inr rfl)).1⟩

/-! ## The day loop of `download_range` -/

theorem runStep_error (geo : AirNow.SiteId → AirNow.SiteAttrs)
    (contents : Int → List AirNow.AggRow) (st : AirNow.DState)
    (e : AirNow.DayErr) (d : Int) :
    AirNow.runStep geo contents (st, some e) d = (st, some e) := rfl

theorem foldl_runStep_error (geo : AirNow.SiteId → AirNow.SiteAttrs)
    (contents : Int → List AirNow.AggRow) (days : List Int)
    (st : AirNow.DState) (e : AirNow.DayErr) :
    days.foldl (AirNow.runStep geo contents) (st, some e) = (st, some e) := by
  induction days with
  | nil => rfl
  | cons d rest ih => simpa [runStep_error] using ih

theorem runDays_nil (geo : AirNow.SiteId → AirNow.SiteAttrs)
    (contents : Int → List AirNow.AggRow) (st : AirNow.DState) :
    AirNow.runDays geo contents [] st = (st, none) := rfl

theorem runDays_cons (geo : AirNow.SiteId → AirNow.SiteAttrs)
    (contents : Int → List AirNow.AggRow) (d : Int) (days : List Int)
    (st : AirNow.DState) :
    AirNow.runDays geo contents (d :: days) st =
      match AirNow.download geo (contents d) st with
      | (st', some e) => (st', some e)
      | (st', none) => AirNow.runDays geo contents days st' := by
  rcases hd : AirNow.download geo (contents d) st with ⟨st', oe⟩
  cases oe with
  | none =>
    simp only [AirNow.runDays, List.foldl_cons, AirNow.runStep, hd]
  | some e =>
    simp only [AirNow.runDays, List.foldl_cons, AirNow.runStep, hd]
    exact foldl_runStep_error geo contents days st' e

theorem runDays_append (geo : AirNow.SiteId → AirNow.SiteAttrs)
    (contents : Int → List AirNow.AggRow) (l1 l2 : List Int)
    (st : AirNow.DState) :
    AirNow.runDays geo contents (l1 ++ l2) st =
      match AirNow.runDays geo contents l1 st with
      | (st', some e) => (st', some e)
      | (st', none) => AirNow.runDays geo contents l2 st' := by
  rcases h1 : AirNow.runDays geo contents l1 st with ⟨st', oe⟩
  cases oe with
  | none =>
    simp only [AirNow.runDays, List.foldl_append]
    rw [show l1.foldl (AirNow.runStep geo contents) (st, none) = (st', none) from h1]
  | some e =>
    simp only [AirNow.runDays, List.foldl_append]
    rw [show l1.foldl (AirNow.runStep geo contents) (st, none) = (st', some e) from h1]
    exact foldl_runStep_error geo contents l2 st' e

theorem daysOfAux_zero (s e : Int) : AirNow.daysOfAux 0 s e = [s] := by
  unfold AirNow.daysOfAux
  split <;> rfl

theorem daysOfAux_succ (fuel : Nat) (s e : Int) :
    AirNow.daysOfAux (fuel + 1) s e =
      if s ≥ e then [s] else s :: AirNow.daysOfAux fuel (s + 1) e := by
  conv_lhs => unfold AirNow.daysOfAux

theorem download_rangeAux_eq_runDays (geo : AirNow.SiteId → AirNow.SiteAttrs)
    (contents : Int → List AirNow.AggRow) :
    ∀ (fuel : Nat) (s e : Int) (st : AirNow.DState),
      AirNow.download_rangeAux geo contents fuel s e st =
        AirNow.runDays geo contents (AirNow.daysOfAux fuel s e) st := by
  intro fuel
  induction fuel with
  | zero =>
    intro s e st
    rw [daysOfAux_zero, runDays_cons]
    rcases hd : AirNow.download geo (contents s) st with ⟨st', oe⟩
    cases oe with
    | none => simp [AirNow.download_rangeAux, hd, runDays_nil]
    | some e' =>
      unfold AirNow.download_rangeAux
      rw [hd]
  | succ fuel ih =>
    intro s e st
    by_cases hse : s ≥ e
    · rw [daysOfAux_succ, if_pos hse, runDays_cons]
      rcases hd : AirNow.download geo (contents s) st with ⟨st', oe⟩
      cases oe with
      | none => simp [AirNow.download_rangeAux, hd, hse, runDays_nil]
      | some e' =>
        unfold AirNow.download_rangeAux
        rw [hd]
    · rw [daysOfAux_succ, if_neg hse, runDays_cons]
      rcases hd : AirNow.download geo (contents s) st with ⟨st', oe⟩
      cases oe with
      | none => simp [AirNow.download_rangeAux, hd, hse, ih]
      | some e' =>
        unfold AirNow.download_rangeAux
        rw [hd]

theorem intRange_length (s t : Int) :
    (AirNow.intRange s t).length = (t - s + 1).toNat := by
  simp [AirNow.intRange]

theorem intRange_self (s : Int) : AirNow.intRange s s = [s] := by
  rw [AirNow.intRange, show (s - s + 1).toNat = 1 by omega]
  norm_num [List.range_succ]

theorem intRange_cons {s t : Int} (h : s ≤ t) :
    AirNow.intRange s t = s :: AirNow.intRange (s + 1) t := by
  have hk : (t - s + 1).toNat = (t - (s + 1) + 1).toNat + 1 := by omega
  rw [AirNow.intRange, AirNow.intRange, hk, List.range_succ_eq_map]
  simp only [List.map_cons, List.map_map]
  congr 1
  · norm_num
  · apply List.map_congr_left
    intro i _
    simp only [Function.comp_apply]
    push_cast
    ring

theorem mem_intRange {s t d : Int} (h : s ≤ t) :
    d ∈ AirNow.intRange s t ↔ s ≤ d ∧ d ≤ t := by
  simp only [AirNow.intRange, List.mem_map, List.mem_range]
  constructor
  · rintro ⟨i, hi, rfl⟩
    omega
  · rintro ⟨h1, h2⟩
    exact ⟨(d - s).toNat, by omega, by omega⟩

theorem intRange_ne_nil {s t : Int} (h : s ≤ t) : AirNow.intRange s t ≠ [] := by
  intro hc
  have hl := intRange_length s t
  rw [hc] at hl
  simp at hl
  omega

theorem daysOfAux_eq_intRange :
    ∀ (fuel : Nat) (s e : Int), (e - s).toNat ≤ fuel →
      AirNow.daysOfAux fuel s e = AirNow.intRange s (max s e) := by
  intro fuel
  induction fuel with
  | zero =>
    intro s e hf
    have hse : e ≤ s := by omega
    rw [daysOfAux_zero, show max s e = s by omega, intRange_self]
  | succ fuel ih =>
    intro s e hf
    by_cases hse : s ≥ e
    · rw [daysOfAux_succ, if_pos hse, show max s e = s by omega, intRange_self]
    · rw [daysOfAux_succ, if_neg hse, ih (s + 1) e (by omega),
        show max s e = e by omega, show max (s + 1) e = e by omega,
        ← intRange_cons (by omega)]

theorem daysOf_eq_intRange (s e : Int) :
    AirNow.daysOf s e = AirNow.intRange s (max s e) :=
  daysOfAux_eq_intRange _ s e (Nat.le_refl _)

/-! ## C10 — inclusive day iteration of `download_range` -/

/-- C10: `download_range` downloads the day `start_date` before checking
the range bound, so it processes exactly the inclusive days from
`start_date` to `max start_date end_date`, in ascending order; in
particular, when `start_date` is after `end_date`, the day `start_date`
is still downloaded once rather than the range being treated as empty. -/
theorem c10_download_range_inclusive_days (geo : AirNow.SiteId → AirNow.SiteAttrs)
    (contents : Int → List AirNow.AggRow) (s e : Int) (st : AirNow.DState) :
    AirNow.download_range geo contents s e st =
      AirNow.runDays geo contents (AirNow.intRange s (max s e)) st
    ∧ AirNow.intRange s (max s e) ≠ []
    ∧ ∀ d : Int, d ∈ AirNow.intRange s (max s e) ↔ s ≤ d ∧ d ≤ max s e := by
  refine ⟨?_, intRange_ne_nil (le_max_left s e),
    fun d => mem_intRange (le_max_left s e)⟩
  rw [AirNow.download_range, download_rangeAux_eq_runDays, ← daysOf_eq_intRange,
    AirNow.daysOf]

/-! ## C8 — empty parameter lists -/

theorem mem_foldl_append {α β : Type} (f : β → List α) (l : List β)
    (init : List α) (x : α) :
    x ∈ l.foldl (fun acc y => acc ++ f y) init ↔ x ∈ init ∨ ∃ y ∈ l, x ∈ f y := by
  induction l generalizing init with
  | nil => simp
  | cons b l ih =>
    rw [List.foldl_cons, ih]
    simp [List.mem_append, or_assoc]

theorem addColumnsAll_map_row (i : Nat) (rows : List Aqs.AqsRow) :
    (Aqs.addColumnsAll i rows).map (fun o => o.row) = rows := by
  induction rows generalizing i with
  | nil => rfl
  | cons r rest ih => simp [Aqs.addColumnsAll, Aqs.add_more_columns, ih]

theorem download_dataLoop_none_rows (contents : List (List Aqs.AqsRow)) :
    ∀ i, ((Aqs.download_dataLoop none i contents).1.map (fun o => o.row))
      = contents.flatten := by
  induction contents with
  | nil => intro i; rfl
  | cons c rest ih =>
    intro i
    simp [Aqs.download_dataLoop, Aqs.transferRows, List.map_append,
      addColumnsAll_map_row, ih]

/-- C8: for every configuration requesting daily aggregation with an
empty parameter list, `collect_aqs_download_tasks` fails the assertion
before producing any `DownloadTask`; for annual aggregation an empty
parameter list is accepted, every produced task carries no parameter
filter, and `download_data` then writes all fetched rows (all parameters
are downloaded). -/
theorem c8_daily_needs_parameters (ctx : Aqs.AQSContext)
    (hp : ctx.parameters = []) :
    (ctx.aggregation = .daily →
      Aqs.collect_aqs_download_tasks ctx = .error .assertionError)
    ∧ (ctx.aggregation = .annual →
      ∀ tasks, Aqs.collect_aqs_download_tasks ctx = .ok tasks →
        ∀ t ∈ tasks, Aqs.taskFilter t = none
          ∧ ∀ contents startIdx,
              ((Aqs.download_data_written t contents startIdx).1.map
                  (fun o => o.row))
                = contents.flatten) := by
  constructor
  · intro hd
    unfold Aqs.collect_aqs_download_tasks
    simp [hd, hp]
  · intro ha tasks htasks t ht
    unfold Aqs.collect_aqs_download_tasks at htasks
    rw [ha, hp] at htasks
    simp only [List.mergeSort_nil] at htasks
    rcases hseg : Aqs.contiguous_years ctx.merge_years ctx.years.mergeSort
      with _ | segs
    · rw [hseg] at htasks
      simp at htasks
    · rw [hseg] at htasks
      simp only [reduceCtorEq, false_and, if_false, Except.ok.injEq] at htasks
      subst htasks
      rw [mem_foldl_append] at ht
      simp only [List.not_mem_nil, false_or, Aqs.tasksOfSegment,
        List.mem_singleton] at ht
      rcases ht with ⟨seg, _, rfl⟩
      refine ⟨rfl, fun contents startIdx => ?_⟩
      rw [Aqs.download_data_written]
      exact download_dataLoop_none_rows contents startIdx

/-- Witness for C8: a concrete daily context with no parameters fails;
annual tasks built with no parameters carry no filter. -/
theorem c8_witness :
    Aqs.collect_aqs_download_tasks
        { aggregation := .daily, parameters := [], years := [2000],
          merge_years := false }
      = .error .assertionError
    ∧ ∀ tasks,
        Aqs.collect_aqs_download_tasks
            { aggregation := .annual, parameters := [], years := [2000],
              merge_years := false }
          = .ok tasks → ∀ t ∈ tasks, Aqs.taskFilter t = none :=
  ⟨(c8_daily_needs_parameters _ rfl).1 rfl,
   fun tasks h t ht => ((c8_daily_needs_parameters _ rfl).2 rfl tasks h t ht).1⟩

/-! ## The sites cache and the row loop of `process` -/

theorem lookupSite_append_of_some {m : List (AirNow.SiteId × AirNow.SiteAttrs)}
    {s : AirNow.SiteId} {v : AirNow.SiteAttrs}
    (h : AirNow.lookupSite m s = some v) (l : List (AirNow.SiteId × AirNow.SiteAttrs)) :
    AirNow.lookupSite (m ++ l) s = some v := by
  induction m with
  | nil => simp [AirNow.lookupSite] at h
  | cons kv rest ih =>
    rcases kv with ⟨k, w⟩
    by_cases hk : k = s
    · subst hk
      simp_all [AirNow.lookupSite]
    · simp only [AirNow.lookupSite, hk, if_false] at h
      simp only [List.cons_append, AirNow.lookupSite, hk, if_false]
      exact ih h

theorem lookupSite_append_self {m : List (AirNow.SiteId × AirNow.SiteAttrs)}
    {s : AirNow.SiteId} (h : AirNow.lookupSite m s = none) (v : AirNow.SiteAttrs) :
    AirNow.lookupSite (m ++ [(s, v)]) s = some v := by
  induction m with
  | nil => simp [AirNow.lookupSite]
  | cons kv rest ih =>
    rcases kv with ⟨k, w⟩
    by_cases hk : k = s
    · subst hk
      simp [AirNow.lookupSite] at h
    · simp only [AirNow.lookupSite, hk, if_false] at h
      simp only [List.cons_append, AirNow.lookupSite, hk, if_false]
      exact ih h

theorem check_sites_cons (geo : AirNow.SiteId → AirNow.SiteAttrs)
    (r : AirNow.AggRow) (rest : List AirNow.AggRow)
    (sites : List (AirNow.SiteId × AirNow.SiteAttrs)) :
    AirNow.check_sites geo (r :: rest) sites =
      AirNow.check_sites geo rest
        (if (AirNow.lookupSite sites r.site).isSome then sites
         else sites ++ [(r.site, geo r.site)]) := rfl

theorem check_sites_mono (geo : AirNow.SiteId → AirNow.SiteAttrs) :
    ∀ (rows : List AirNow.AggRow) (sites) (s : AirNow.SiteId) (v : AirNow.SiteAttrs),
      AirNow.lookupSite sites s = some v →
      AirNow.lookupSite (AirNow.check_sites geo rows sites) s = some v := by
  intro rows
  induction rows with
  | nil => intro sites s v h; exact h
  | cons r rest ih =>
    intro sites s v h
    rw [check_sites_cons]
    by_cases hr : (AirNow.lookupSite sites r.site).isSome
    · rw [if_pos hr]
      exact ih sites s v h
    · rw [if_neg hr]
      exact ih _ s v (lookupSite_append_of_some h _)

theorem check_sites_covers (geo : AirNow.SiteId → AirNow.SiteAttrs) :
    ∀ (rows : List AirNow.AggRow) (sites) (r : AirNow.AggRow), r ∈ rows →
      (AirNow.lookupSite (AirNow.check_sites geo rows sites) r.site).isSome := by
  intro rows
  induction rows with
  | nil => intro sites r hr; simp at hr
  | cons r0 rest ih =>
    intro sites r hr
    rw [check_sites_cons]
    rcases List.mem_cons.mp hr with rfl | hr
    · by_cases h0 : (AirNow.lookupSite sites r.site).isSome
      · rw [if_pos h0]
        rcases Option.isSome_iff_exists.mp h0 with ⟨v, hv⟩
        rw [check_sites_mono geo rest sites r.site v hv]
        rfl
      · rw [if_neg h0]
        have hnone : AirNow.lookupSite sites r.site = none := by
          rcases hx : AirNow.lookupSite sites r.site with _ | v
          · rfl
          · rw [hx] at h0; simp at h0
        rw [check_sites_mono geo rest _ r.site (geo r.site)
          (lookupSite_append_self hnone _)]
        rfl
    · exact ih _ r hr

theorem processRows_nil (sites : List (AirNow.SiteId × AirNow.SiteAttrs)) (idx : Nat) :
    AirNow.processRows sites idx [] = ([], idx) := rfl

theorem processRows_cons_none (sites : List (AirNow.SiteId × AirNow.SiteAttrs))
    (idx : Nat) (r : AirNow.AggRow) (rest : List AirNow.AggRow)
    (h : AirNow.lookupSite sites r.site = none) :
    AirNow.processRows sites idx (r :: rest) = AirNow.processRows sites idx rest := by
  conv_lhs => unfold AirNow.processRows
  rw [h]

theorem processRows_cons_some (sites : List (AirNow.SiteId × AirNow.SiteAttrs))
    (idx : Nat) (r : AirNow.AggRow) (rest : List AirNow.AggRow)
    (attrs : AirNow.SiteAttrs) (h : AirNow.lookupSite sites r.site = some attrs) :
    AirNow.processRows sites idx (r :: rest) =
      ({ site := r.site, year := r.year, value := r.value, attrs := attrs,
         record := recordKey r.year (idx + 1),
         monitor := AirNow.add_monitor_key attrs r.site }
          :: (AirNow.processRows sites (idx + 1) rest).1,
       (AirNow.processRows sites (idx + 1) rest).2) := by
  conv_lhs => unfold AirNow.processRows
  rw [h]

theorem processRows_spec (sites : List (AirNow.SiteId × AirNow.SiteAttrs)) :
    ∀ (rows : List AirNow.AggRow) (idx : Nat),
      idx ≤ (AirNow.processRows sites idx rows).2
      ∧ (∀ o ∈ (AirNow.processRows sites idx rows).1,
          idx < decodeSeq o.record
          ∧ decodeSeq o.record ≤ (AirNow.processRows sites idx rows).2
          ∧ o.record = recordKey o.year (decodeSeq o.record))
      ∧ List.Pairwise (fun a b => decodeSeq a.record < decodeSeq b.record)
          (AirNow.processRows sites idx rows).1 := by
  intro rows
  induction rows with
  | nil => intro idx; simp [processRows_nil]
  | cons r rest ih =>
    intro idx
    rcases hl : AirNow.lookupSite sites r.site with _ | attrs
    · rw [processRows_cons_none sites idx r rest hl]
      obtain ⟨h1, h2, h3⟩ := ih idx
      exact ⟨h1, h2, h3⟩
    · rw [processRows_cons_some sites idx r rest attrs hl]
      obtain ⟨h1, h2, h3⟩ := ih (idx + 1)
      refine ⟨by omega, ?_, ?_⟩
      · intro o ho
        rcases List.mem_cons.mp ho with rfl | ho
        · refine ⟨?_, ?_, ?_⟩
          · simp [decodeSeq_recordKey]
          · simp only [decodeSeq_recordKey]
            omega
          · simp [decodeSeq_recordKey]
        · obtain ⟨ha, hb, hc⟩ := h2 o ho
          exact ⟨by omega, hb, hc⟩
      · rw [List.pairwise_cons]
        refine ⟨?_, h3⟩
        intro o ho
        have := (h2 o ho).1
        simp only [decodeSeq_recordKey]
        omega

theorem processRows_all_present (sites : List (AirNow.SiteId × AirNow.SiteAttrs)) :
    ∀ (rows : List AirNow.AggRow) (idx : Nat),
      (∀ r ∈ rows, (AirNow.lookupSite sites r.site).isSome) →
      (AirNow.processRows sites idx rows).1.length = rows.length
      ∧ (AirNow.processRows sites idx rows).1.map (fun o => o.site)
          = rows.map (fun r => r.site)
      ∧ (AirNow.processRows sites idx rows).2 = idx + rows.length
      ∧ ∀ o ∈ (AirNow.processRows sites idx rows).1,
          AirNow.lookupSite sites o.site = some o.attrs
          ∧ o.monitor = AirNow.add_monitor_key o.attrs o.site := by
  intro rows
  induction rows with
  | nil => intro idx h; simp [processRows_nil]
  | cons r rest ih =>
    intro idx h
    rcases hl : AirNow.lookupSite sites r.site with _ | attrs
    · have := h r (by simp)
      rw [hl] at this
      simp at this
    · rw [processRows_cons_some sites idx r rest attrs hl]
      obtain ⟨h1, h2, h3, h4⟩ := ih (idx + 1) (fun x hx => h x (by simp [hx]))
      refine ⟨by simp [h1], by simp [h2], by simp [h3]; omega, ?_⟩
      intro o ho
      rcases List.mem_cons.mp ho with rfl | ho
      · exact ⟨hl, rfl⟩
      · exact h4 o ho


/-! ## `process` and `download` -/

theorem process_eq (geo : AirNow.SiteId → AirNow.SiteAttrs)
    (rows : List AirNow.AggRow) (st : AirNow.DState) :
    AirNow.process geo rows st =
      ((AirNow.processRows (AirNow.check_sites geo rows st.sites)
          st.record_index rows).1,
       { record_index := (AirNow.processRows (AirNow.check_sites geo rows st.sites)
            st.record_index rows).2,
         sites := AirNow.check_sites geo rows st.sites,
         file := st.file }) := rfl

theorem process_length (geo : AirNow.SiteId → AirNow.SiteAttrs)
    (rows : List AirNow.AggRow) (st : AirNow.DState) :
    (AirNow.process geo rows st).1.length = rows.length := by
  rw [process_eq]
  exact (processRows_all_present _ rows st.record_index
    (fun r hr => check_sites_covers geo rows st.sites r hr)).1

theorem process_nil (geo : AirNow.SiteId → AirNow.SiteAttrs) (st : AirNow.DState) :
    AirNow.process geo [] st = ([], st) := rfl

theorem download_empty_day (geo : AirNow.SiteId → AirNow.SiteAttrs)
    (st : AirNow.DState) :
    AirNow.download geo [] st = (st, some .emptyResponse) := rfl

theorem download_of_ne (geo : AirNow.SiteId → AirNow.SiteAttrs)
    (rows : List AirNow.AggRow) (st : AirNow.DState) (h : rows ≠ []) :
    AirNow.download geo rows st =
      ({ record_index := (AirNow.process geo rows st).2.record_index,
         sites := (AirNow.process geo rows st).2.sites,
         file := st.file ++ (AirNow.process geo rows st).1 }, none) := by
  have hlen : (AirNow.process geo rows st).1.length = rows.length :=
    process_length geo rows st
  rcases hd : (AirNow.process geo rows st).1 with _ | ⟨o, data⟩
  · rw [hd] at hlen
    exact absurd (List.length_eq_zero.mp hlen.symm) h
  · simp only [AirNow.download, hd, List.isEmpty_cons, Bool.false_eq_true,
      if_false]
    have hf : (AirNow.process geo rows st).2.file = st.file := by rw [process_eq]
    rw [hf]

/-! ## C5 — unresolved sites are kept, not dropped -/

/-- C5 counterexample: an aggregated row whose site resolves to no
geography at all is NOT dropped by `process`: `check_sites` caches the
site (with all-null geography, as the spatial join is a left join), so
the row is kept and assigned the fallback Monitor key
`"__-00000-000000007"`. -/
theorem c5_counterexample :
    (AirNow.process geoNone [{ site := .int 7, year := 2020, value := 5 }]
        freshState).1 ≠ []
    ∧ ((AirNow.process geoNone [{ site := .int 7, year := 2020, value := 5 }]
          freshState).1.map (fun o => o.monitor))
        = [[underC, underC] ++ dashC :: List.replicate 5 zeroC
            ++ dashC :: padZ 9 (digitsN 7)] := by
  constructor
  · decide
  · decide

/-- C5 amended: in the per-day processing, `check_sites` enters every new
site into the cache — with null geography when it cannot be geolocated —
so no aggregated row is dropped: every row is kept (row count and site
order preserved), assigned its cached geography attributes, a Monitor key
(falling back to `"__-00000-…"` defaults when unresolved) and a Record
key, and collected for appending to the destination. -/
theorem c5_amended_no_row_dropped (geo : AirNow.SiteId → AirNow.SiteAttrs)
    (rows : List AirNow.AggRow) (st : AirNow.DState) :
    (AirNow.process geo rows st).1.length = rows.length
    ∧ (AirNow.process geo rows st).1.map (fun o => o.site)
        = rows.map (fun r => r.site)
    ∧ ∀ o ∈ (AirNow.process geo rows st).1,
        AirNow.lookupSite (AirNow.process geo rows st).2.sites o.site = some o.attrs
        ∧ o.monitor = AirNow.add_monitor_key o.attrs o.site
        ∧ o.record = recordKey o.year (decodeSeq o.record) := by
  have hcover : ∀ r ∈ rows,
      (AirNow.lookupSite (AirNow.check_sites geo rows st.sites) r.site).isSome :=
    fun r hr => check_sites_covers geo rows st.sites r hr
  obtain ⟨h1, h2, h3, h4⟩ :=
    processRows_all_present (AirNow.check_sites geo rows st.sites) rows
      st.record_index hcover
  obtain ⟨g1, g2, g3⟩ :=
    processRows_spec (AirNow.check_sites geo rows st.sites) rows st.record_index
  rw [process_eq]
  refine ⟨h1, h2, ?_⟩
  intro o ho
  obtain ⟨ha, hb⟩ := h4 o ho
  exact ⟨ha, hb, (g2 o ho).2.2⟩

/-! ## Record-key invariants over a run -/

theorem download_records (geo : AirNow.SiteId → AirNow.SiteAttrs)
    (rows : List AirNow.AggRow) (st : AirNow.DState)
    (h1 : ∀ o ∈ st.file, decodeSeq o.record ≤ st.record_index
      ∧ o.record = recordKey o.year (decodeSeq o.record))
    (h2 : List.Pairwise (fun a b => decodeSeq a.record < decodeSeq b.record)
      st.file) :
    st.record_index ≤ (AirNow.download geo rows st).1.record_index
    ∧ (∀ o ∈ (AirNow.download geo rows st).1.file,
        decodeSeq o.record ≤ (AirNow.download geo rows st).1.record_index
        ∧ o.record = recordKey o.year (decodeSeq o.record))
    ∧ List.Pairwise (fun a b => decodeSeq a.record < decodeSeq b.record)
        (AirNow.download geo rows st).1.file := by
  obtain ⟨g1, g2, g3⟩ :=
    processRows_spec (AirNow.check_sites geo rows st.sites) rows st.record_index
  rcases hd : (AirNow.process geo rows st).1 with _ | ⟨o0, data⟩
  · have hdl : AirNow.download geo rows st =
        ((AirNow.process geo rows st).2, some .emptyResponse) := by
      simp [AirNow.download, hd]
    rw [hdl]
    rw [process_eq] at hd ⊢
    simp only at hd ⊢
    refine ⟨g1, ?_, h2⟩
    intro o ho
    obtain ⟨ha, hb⟩ := h1 o ho
    exact ⟨by omega, hb⟩
  · have hne : rows ≠ [] := by
      intro hx
      subst hx
      rw [process_nil] at hd
      simp at hd
    rw [download_of_ne geo rows st hne]
    simp only
    have hdata : ∀ o ∈ (AirNow.process geo rows st).1,
        st.record_index < decodeSeq o.record
        ∧ decodeSeq o.record ≤ (AirNow.process geo rows st).2.record_index
        ∧ o.record = recordKey o.year (decodeSeq o.record) := by
      rw [process_eq]
      exact g2
    have hpair : List.Pairwise (fun a b => decodeSeq a.record < decodeSeq b.record)
        (AirNow.process geo rows st).1 := by
      rw [process_eq]
      exact g3
    have hidx : st.record_index ≤ (AirNow.process geo rows st).2.record_index := by
      rw [process_eq]
      exact g1
    refine ⟨hidx, ?_, ?_⟩
    · intro o ho
      rw [List.mem_append] at ho
      rcases ho with ho | ho
      · obtain ⟨ha, hb⟩ := h1 o ho
        exact ⟨by omega, hb⟩
      · obtain ⟨ha, hb, hc⟩ := hdata o ho
        exact ⟨hb, hc⟩
    · rw [List.pairwise_append]
      refine ⟨h2, hpair, ?_⟩
      intro a ha b hb
      have h1a := (h1 a ha).1
      have hdb := (hdata b hb).1
      omega

theorem runDays_records (geo : AirNow.SiteId → AirNow.SiteAttrs)
    (contents : Int → List AirNow.AggRow) :
    ∀ (days : List Int) (st : AirNow.DState),
      (∀ o ∈ st.file, decodeSeq o.record ≤ st.record_index
        ∧ o.record = recordKey o.year (decodeSeq o.record)) →
      List.Pairwise (fun a b => decodeSeq a.record < decodeSeq b.record) st.file →
      (∀ o ∈ ((AirNow.runDays geo contents days st).1).file,
        decodeSeq o.record ≤ ((AirNow.runDays geo contents days st).1).record_index
        ∧ o.record = recordKey o.year (decodeSeq o.record))
      ∧ List.Pairwise (fun a b => decodeSeq a.record < decodeSeq b.record)
          ((AirNow.runDays geo contents days st).1).file := by
  intro days
  induction days with
  | nil =>
    intro st h1 h2
    exact ⟨h1, h2⟩
  | cons d rest ih =>
    intro st h1 h2
    rw [runDays_cons]
    obtain ⟨hd1, hd2, hd3⟩ := download_records geo (contents d) st h1 h2
    rcases hdl : AirNow.download geo (contents d) st with ⟨st1, oe⟩
    rw [hdl] at hd1 hd2 hd3
    cases oe with
    | some e => exact ⟨hd2, hd3⟩
    | none => exact ih st1 hd2 hd3

/-! ## C2 — Record keys within one run -/

/-- C2: over any run of one downloader instance (fresh `record_index`,
fresh destination file), every Record key written to the file has the
format `{year}-{sequence}` with the sequence zero-padded to 10 digits
(exactly 10 while the counter stays below `10^10`), the sequence numbers
are strictly increasing in write order, and the keys are pairwise
distinct within the file. -/
theorem c2_record_keys_unique (geo : AirNow.SiteId → AirNow.SiteAttrs)
    (contents : Int → List AirNow.AggRow) (days : List Int) :
    (∀ o ∈ ((AirNow.runDays geo contents days freshState).1).file,
        o.record = recordKey o.year (decodeSeq o.record)
        ∧ (decodeSeq o.record < 10 ^ 10 → (seqPart o.record).length = 10))
    ∧ List.Pairwise (fun a b => decodeSeq a.record < decodeSeq b.record)
        ((AirNow.runDays geo contents days freshState).1).file
    ∧ (((AirNow.runDays geo contents days freshState).1).file.map
        (fun o => o.record)).Nodup := by
  obtain ⟨h1, h2⟩ := runDays_records geo contents days freshState
    (by simp [freshState]) (by simp [freshState])
  refine ⟨?_, h2, ?_⟩
  · intro o ho
    obtain ⟨ha, hb⟩ := h1 o ho
    refine ⟨hb, fun hlt => ?_⟩
    rw [hb, seqPart_recordKey]
    exact padZ_length (digitsN_length_le (by omega) hlt)
  · have himp : ∀ a b : AirNow.OutRow,
        decodeSeq a.record < decodeSeq b.record → a.record ≠ b.record := by
      intro a b hab heq
      rw [heq] at hab
      omega
    exact List.Pairwise.map (fun o => o.record) himp h2

/-- Witness for C2 on a concrete one-day run. -/
theorem c2_witness :
    (∀ o ∈ ((AirNow.runDays geoNone contentsW [0] freshState).1).file,
        o.record = recordKey o.year (decodeSeq o.record)
        ∧ (decodeSeq o.record < 10 ^ 10 → (seqPart o.record).length = 10))
    ∧ List.Pairwise (fun a b => decodeSeq a.record < decodeSeq b.record)
        ((AirNow.runDays geoNone contentsW [0] freshState).1).file
    ∧ (((AirNow.runDays geoNone contentsW [0] freshState).1).file.map
        (fun o => o.record)).Nodup :=
  c2_record_keys_unique geoNone contentsW [0]

/-! ## C4 — an empty day aborts the range -/

theorem intRange_nil {s t : Int} (h : t < s) : AirNow.intRange s t = [] := by
  apply List.length_eq_zero.mp
  rw [intRange_length]
  omega

theorem intRange_split_aux {k e : Int} (h2 : k ≤ e) :
    ∀ (n : Nat) (s : Int), s ≤ k → (k - s).toNat = n →
      AirNow.intRange s e = AirNow.intRange s (k - 1) ++ AirNow.intRange k e := by
  intro n
  induction n with
  | zero =>
    intro s h1 hn
    have hks : k = s := by omega
    subst hks
    rw [show AirNow.intRange k (k - 1) = [] from intRange_nil (by omega)]
    rfl
  | succ n ih =>
    intro s h1 hn
    rw [intRange_cons (show s ≤ e by omega), intRange_cons (show s ≤ k - 1 by omega),
      List.cons_append]
    congr 1
    exact ih (s + 1) (by omega) (by omega)

theorem intRange_split {s k e : Int} (h1 : s ≤ k) (h2 : k ≤ e) :
    AirNow.intRange s e = AirNow.intRange s (k - 1) ++ AirNow.intRange k e :=
  intRange_split_aux h2 (k - s).toNat s h1 rfl

theorem runDays_ok_of_nonempty (geo : AirNow.SiteId → AirNow.SiteAttrs)
    (contents : Int → List AirNow.AggRow) :
    ∀ (days : List Int) (st : AirNow.DState),
      (∀ d ∈ days, contents d ≠ []) →
      (AirNow.runDays geo contents days st).2 = none := by
  intro days
  induction days with
  | nil => intro st h; rfl
  | cons d rest ih =>
    intro st h
    rw [runDays_cons, download_of_ne geo (contents d) st (h d (by simp))]
    exact ih _ (fun x hx => h x (by simp [hx]))

/-- C4: in the calendar-range flow, the first day `k` of the range whose
content produces zero processed rows raises the empty-response exception,
aborting the whole range; the final state is exactly the state after the
successful run over the days before `k`, so the rows of all previously
processed days remain flushed to the destination file, unchanged by the
failure. -/
theorem c4_empty_day_fatal (geo : AirNow.SiteId → AirNow.SiteAttrs)
    (contents : Int → List AirNow.AggRow) (s k e : Int) (st : AirNow.DState)
    (hsk : s ≤ k) (hke : k ≤ e) (hempty : contents k = [])
    (hbefore : ∀ d : Int, s ≤ d → d < k → contents d ≠ []) :
    AirNow.download_range geo contents s e st =
      ((AirNow.runDays geo contents (AirNow.intRange s (k - 1)) st).1,
        some .emptyResponse)
    ∧ (AirNow.runDays geo contents (AirNow.intRange s (k - 1)) st).2 = none := by
  have hpre : ∀ d ∈ AirNow.intRange s (k - 1), contents d ≠ [] := by
    intro d hd
    by_cases hsk1 : s ≤ k - 1
    · obtain ⟨hd1, hd2⟩ := (mem_intRange hsk1).mp hd
      exact hbefore d hd1 (by omega)
    · rw [intRange_nil (by omega)] at hd
      simp at hd
  have hpre2 : (AirNow.runDays geo contents (AirNow.intRange s (k - 1)) st).2 = none :=
    runDays_ok_of_nonempty geo contents _ st hpre
  refine ⟨?_, hpre2⟩
  have hdr : AirNow.download_range geo contents s e st =
      AirNow.runDays geo contents (AirNow.intRange s e) st := by
    rw [AirNow.download_range, download_rangeAux_eq_runDays]
    have hdays : AirNow.daysOfAux (e - s).toNat s e = AirNow.intRange s e := by
      have h0 := daysOf_eq_intRange s e
      rw [AirNow.daysOf] at h0
      rw [h0, show max s e = e by omega]
    rw [hdays]
  rw [hdr, intRange_split hsk hke, runDays_append]
  rcases hp : AirNow.runDays geo contents (AirNow.intRange s (k - 1)) st with ⟨stp, oe⟩
  rw [hp] at hpre2
  simp only at hpre2
  subst hpre2
  show AirNow.runDays geo contents (AirNow.intRange k e) stp =
    (stp, some .emptyResponse)
  rw [intRange_cons hke, runDays_cons, hempty, download_empty_day]

/-- Witness for C4: a two-day range whose second day is empty fails on
that day, leaving the first day's rows flushed. -/
theorem c4_witness :
    (0 : Int) ≤ 1 ∧ (1 : Int) ≤ 1 ∧ contentsW 1 = []
    ∧ AirNow.download_range geoNone contentsW 0 1 freshState =
        ((AirNow.runDays geoNone contentsW (AirNow.intRange 0 0) freshState).1,
          some .emptyResponse) := by
  refine ⟨by norm_num, by norm_num, rfl, ?_⟩
  exact (c4_empty_day_fatal geoNone contentsW 0 1 1 freshState (by norm_num)
    (by norm_num) rfl (fun d h1 h2 => by
      have hd0 : d = 0 := by omega
      subst hd0
      simp [contentsW])).1


/-! ## C3 — retry loops -/

theorem get_contentAux_step {ε α : Type} (tries : Nat → Except ε α)
    (fuel attempts : Nat) (x : ε) (ht : tries attempts = .error x)
    (hlt : attempts + 1 < AirNow.max_attempts) :
    AirNow.get_contentAux tries attempts (fuel + 1) =
      { attempts := (AirNow.get_contentAux tries (attempts + 1) fuel).attempts + 1,
        sleeps := AirNow.time_to_sleep_between_attempts ::
          (AirNow.get_contentAux tries (attempts + 1) fuel).sleeps,
        outcome := (AirNow.get_contentAux tries (attempts + 1) fuel).outcome } := by
  conv_lhs => unfold AirNow.get_contentAux
  simp only [ht, if_pos hlt]

theorem get_contentAux_stop {ε α : Type} (tries : Nat → Except ε α)
    (fuel attempts : Nat) (x : ε) (ht : tries attempts = .error x)
    (hlt : ¬ attempts + 1 < AirNow.max_attempts) :
    AirNow.get_contentAux tries attempts (fuel + 1) =
      { attempts := 1, sleeps := [], outcome := .error x } := by
  conv_lhs => unfold AirNow.get_contentAux
  simp only [ht, if_neg hlt]

theorem get_contentAux_ok {ε α : Type} (tries : Nat → Except ε α)
    (fuel attempts : Nat) (c : α) (ht : tries attempts = .ok c) :
    AirNow.get_contentAux tries attempts fuel =
      { attempts := 1, sleeps := [], outcome := .ok c } := by
  conv_lhs => unfold AirNow.get_contentAux
  simp only [ht]

theorem get_contentAux_zero_err {ε α : Type} (tries : Nat → Except ε α)
    (attempts : Nat) (x : ε) (ht : tries attempts = .error x) :
    AirNow.get_contentAux tries attempts 0 =
      { attempts := 1, sleeps := [], outcome := .error x } := by
  conv_lhs => unfold AirNow.get_contentAux
  simp only [ht]

theorem get_contentAux_spec {ε α : Type} (tries : Nat → Except ε α) :
    ∀ (fuel attempts : Nat), attempts < 5 →
      1 ≤ (AirNow.get_contentAux tries attempts fuel).attempts
      ∧ (AirNow.get_contentAux tries attempts fuel).attempts ≤ 5 - attempts
      ∧ (AirNow.get_contentAux tries attempts fuel).sleeps =
          List.replicate ((AirNow.get_contentAux tries attempts fuel).attempts - 1) 10 := by
  intro fuel
  induction fuel with
  | zero =>
    intro attempts h
    rcases ht : tries attempts with x | c
    · rw [get_contentAux_zero_err tries attempts x ht]
      simp
      omega
    · rw [get_contentAux_ok tries 0 attempts c ht]
      simp
      omega
  | succ fuel ih =>
    intro attempts h
    rcases ht : tries attempts with x | c
    · by_cases hlt : attempts + 1 < 5
      · rw [get_contentAux_step tries fuel attempts x ht hlt]
        obtain ⟨i1, i2, i3⟩ := ih (attempts + 1) hlt
        simp only
        refine ⟨by omega, by omega, ?_⟩
        rw [i3, show (AirNow.get_contentAux tries (attempts + 1) fuel).attempts + 1 - 1
            = ((AirNow.get_contentAux tries (attempts + 1) fuel).attempts - 1) + 1 by omega,
          List.replicate_succ]
        rfl
      · rw [get_contentAux_stop tries fuel attempts x ht hlt]
        simp
        omega
    · rw [get_contentAux_ok tries (fuel + 1) attempts c ht]
      simp
      omega

theorem get_content_all_fail {ε α : Type} (tries : Nat → Except ε α)
    (h : ∀ k, k < 5 → ∃ x, tries k = .error x) :
    (AirNow.get_content tries).attempts = 5
    ∧ (AirNow.get_content tries).sleeps = List.replicate 4 10
    ∧ (AirNow.get_content tries).outcome = tries 4 := by
  obtain ⟨x0, h0⟩ := h 0 (by norm_num)
  obtain ⟨x1, h1⟩ := h 1 (by norm_num)
  obtain ⟨x2, h2⟩ := h 2 (by norm_num)
  obtain ⟨x3, h3⟩ := h 3 (by norm_num)
  obtain ⟨x4, h4⟩ := h 4 (by norm_num)
  have hrun : AirNow.get_content tries =
      { attempts := 5, sleeps := [10, 10, 10, 10], outcome := Except.error x4 } := by
    simp [AirNow.get_content, AirNow.get_contentAux, AirNow.max_attempts,
      AirNow.time_to_sleep_between_attempts, h0, h1, h2, h3, h4]
  rw [hrun, h4]
  exact ⟨rfl, by norm_num [List.replicate_succ], rfl⟩

theorem download_dataRetryAux_stop {ε α : Type} (tries : Nat → Except ε α)
    (fuel attempt : Nat) (x : ε) (ht : tries attempt = .error x)
    (hgt : attempt + 1 > 3) :
    Aqs.download_dataRetryAux tries attempt (fuel + 1) =
      { attempts := 1, sleeps := [], outcome := .error x } := by
  conv_lhs => unfold Aqs.download_dataRetryAux
  simp only [ht, if_pos hgt]

theorem download_dataRetryAux_step {ε α : Type} (tries : Nat → Except ε α)
    (fuel attempt : Nat) (x : ε) (ht : tries attempt = .error x)
    (hle : ¬ attempt + 1 > 3) :
    Aqs.download_dataRetryAux tries attempt (fuel + 1) =
      { attempts := (Aqs.download_dataRetryAux tries (attempt + 1) fuel).attempts + 1,
        sleeps := (Aqs.download_dataRetryAux tries (attempt + 1) fuel).sleeps,
        outcome := (Aqs.download_dataRetryAux tries (attempt + 1) fuel).outcome } := by
  conv_lhs => unfold Aqs.download_dataRetryAux
  simp only [ht, if_neg hle]

theorem download_dataRetryAux_ok {ε α : Type} (tries : Nat → Except ε α)
    (fuel attempt : Nat) (c : α) (ht : tries attempt = .ok c) :
    Aqs.download_dataRetryAux tries attempt fuel =
      { attempts := 1, sleeps := [], outcome := .ok c } := by
  conv_lhs => unfold Aqs.download_dataRetryAux
  simp only [ht]

theorem download_dataRetryAux_zero_err {ε α : Type} (tries : Nat → Except ε α)
    (attempt : Nat) (x : ε) (ht : tries attempt = .error x) :
    Aqs.download_dataRetryAux tries attempt 0 =
      { attempts := 1, sleeps := [], outcome := .error x } := by
  conv_lhs => unfold Aqs.download_dataRetryAux
  simp only [ht]

theorem download_dataRetryAux_spec {ε α : Type} (tries : Nat → Except ε α) :
    ∀ (fuel attempt : Nat), attempt ≤ 3 →
      1 ≤ (Aqs.download_dataRetryAux tries attempt fuel).attempts
      ∧ (Aqs.download_dataRetryAux tries attempt fuel).attempts ≤ 4 - attempt
      ∧ (Aqs.download_dataRetryAux tries attempt fuel).sleeps = [] := by
  intro fuel
  induction fuel with
  | zero =>
    intro attempt h
    rcases ht : tries attempt with x | c
    · rw [download_dataRetryAux_zero_err tries attempt x ht]
      simp
      omega
    · rw [download_dataRetryAux_ok tries 0 attempt c ht]
      simp
      omega
  | succ fuel ih =>
    intro attempt h
    rcases ht : tries attempt with x | c
    · by_cases hgt : attempt + 1 > 3
      · rw [download_dataRetryAux_stop tries fuel attempt x ht hgt]
        simp
        omega
      · rw [download_dataRetryAux_step tries fuel attempt x ht hgt]
        obtain ⟨i1, i2, i3⟩ := ih (attempt + 1) (by omega)
        simp only
        exact ⟨by omega, by omega, i3⟩
    · rw [download_dataRetryAux_ok tries (fuel + 1) attempt c ht]
      simp
      omega

theorem download_dataRetry_all_fail {ε α : Type} (tries : Nat → Except ε α)
    (h : ∀ k, k < 4 → ∃ x, tries k = .error x) :
    (Aqs.download_dataRetry tries).attempts = 4
    ∧ (Aqs.download_dataRetry tries).sleeps = []
    ∧ (Aqs.download_dataRetry tries).outcome = tries 3 := by
  obtain ⟨x0, h0⟩ := h 0 (by norm_num)
  obtain ⟨x1, h1⟩ := h 1 (by norm_num)
  obtain ⟨x2, h2⟩ := h 2 (by norm_num)
  obtain ⟨x3, h3⟩ := h 3 (by norm_num)
  have hrun : Aqs.download_dataRetry tries =
      { attempts := 4, sleeps := [], outcome := Except.error x3 } := by
    simp [Aqs.download_dataRetry, Aqs.download_dataRetryAux, h0, h1, h2, h3]
  rw [hrun, h3]
  exact ⟨rfl, rfl, rfl⟩


/-- C3 counterexample: on an all-failing fetch schedule, the retry loop
of `download_data` (one of the two remote fetch operations the claim
covers) makes exactly 4 attempts (not 5) with NO sleeps between
consecutive attempts (not 10 seconds), propagating the 4th attempt's
exception. -/
theorem c3_counterexample :
    (Aqs.download_dataRetry failSchedule).attempts = 4
    ∧ (Aqs.download_dataRetry failSchedule).sleeps = []
    ∧ (Aqs.download_dataRetry failSchedule).outcome = .error 3
    ∧ ¬ ((Aqs.download_dataRetry failSchedule).attempts = 5)
    ∧ ¬ ((Aqs.download_dataRetry failSchedule).sleeps =
          List.replicate ((Aqs.download_dataRetry failSchedule).attempts - 1) 10) := by
  refine ⟨rfl, rfl, rfl, by decide, by decide⟩

/-- C3 amended: the AirNow fetch (`AirNowDownloader.get_content`) makes
at most 5 total attempts with a fixed 10-second sleep between consecutive
attempts, and if all 5 fail the 5th attempt's exception propagates
unchanged; the AQS fetch loop in `download_data` makes at most 4 total
attempts with no sleep between them, and if all 4 fail the 4th attempt's
exception propagates unchanged. -/
theorem c3_amended_retry_behavior {ε α : Type} (tries tries2 : Nat → Except ε α) :
    (AirNow.get_content tries).attempts ≤ 5
    ∧ (AirNow.get_content tries).sleeps =
        List.replicate ((AirNow.get_content tries).attempts - 1) 10
    ∧ ((∀ k, k < 5 → ∃ x, tries k = .error x) →
        (AirNow.get_content tries).attempts = 5
        ∧ (AirNow.get_content tries).sleeps = List.replicate 4 10
        ∧ (AirNow.get_content tries).outcome = tries 4)
    ∧ (Aqs.download_dataRetry tries2).attempts ≤ 4
    ∧ (Aqs.download_dataRetry tries2).sleeps = []
    ∧ ((∀ k, k < 4 → ∃ x, tries2 k = .error x) →
        (Aqs.download_dataRetry tries2).attempts = 4
        ∧ (Aqs.download_dataRetry tries2).outcome = tries2 3) := by
  obtain ⟨g1, g2, g3⟩ := get_contentAux_spec tries AirNow.max_attempts 0 (by norm_num)
  obtain ⟨d1, d2, d3⟩ := download_dataRetryAux_spec tries2 4 0 (by norm_num)
  refine ⟨le_trans g2 (by norm_num), g3, ?_, le_trans d2 (by norm_num), d3, ?_⟩
  · intro hf
    exact get_content_all_fail tries hf
  · intro hf
    obtain ⟨a1, a2, a3⟩ := download_dataRetry_all_fail tries2 hf
    exact ⟨a1, a3⟩

/-- Witness for C3 on the concrete all-failing schedule. -/
theorem c3_witness :
    (∀ k, k < 5 → ∃ x, failSchedule k = Except.error x)
    ∧ (AirNow.get_content failSchedule).attempts = 5
    ∧ (AirNow.get_content failSchedule).outcome = failSchedule 4
    ∧ (Aqs.download_dataRetry failSchedule).attempts = 4
    ∧ (Aqs.download_dataRetry failSchedule).sleeps = [] := by
  have hall : ∀ k, k < 5 → ∃ x, failSchedule k = Except.error x :=
    fun k _ => ⟨k, rfl⟩
  have hall4 : ∀ k, k < 4 → ∃ x, failSchedule k = Except.error x :=
    fun k _ => ⟨k, rfl⟩
  have H := c3_amended_retry_behavior failSchedule failSchedule
  exact ⟨hall, (H.2.2.1 hall).1, (H.2.2.1 hall).2.2,
    (H.2.2.2.2.2 hall4).1, H.2.2.2.2.1⟩


/-! ## C6 — join and row preservation -/

theorem sjoinPts_cons {μ : Type} (mf : Gis.GRow → List μ) (r : Gis.GRow)
    (rest : List Gis.GRow) :
    Gis.sjoinPts mf (r :: rest) =
      (Gis.sjoinMatches (mf r)).map (fun m => (r, m))
        ++ Gis.sjoinPts mf rest := rfl

theorem sjoinMatches_length_pos {μ : Type} (ms : List μ) :
    1 ≤ (Gis.sjoinMatches ms).length := by
  match ms with
  | [] => simp [Gis.sjoinMatches]
  | m :: t => simp [Gis.sjoinMatches]

theorem sjoinMatches_eq_of_le {μ : Type} (ms : List μ) (h : ms.length ≤ 1) :
    Gis.sjoinMatches ms = [ms.head?] := by
  match ms with
  | [] => rfl
  | [m] => rfl
  | m :: m2 :: t => simp at h

theorem sjoinPts_length_ge {μ : Type} (mf : Gis.GRow → List μ) :
    ∀ rows : List Gis.GRow, rows.length ≤ (Gis.sjoinPts mf rows).length := by
  intro rows
  induction rows with
  | nil => simp [Gis.sjoinPts]
  | cons r rest ih =>
    rw [sjoinPts_cons, List.length_append, List.length_map, List.length_cons]
    have := sjoinMatches_length_pos (mf r)
    omega

theorem sjoinPts_eq_iff {μ : Type} (mf : Gis.GRow → List μ) :
    ∀ rows : List Gis.GRow,
      (Gis.sjoinPts mf rows).length = rows.length ↔
        ∀ r ∈ rows, (mf r).length ≤ 1 := by
  intro rows
  induction rows with
  | nil => simp [Gis.sjoinPts]
  | cons r rest ih =>
    rw [sjoinPts_cons, List.length_append, List.length_map, List.length_cons]
    constructor
    · intro h
      have hge := sjoinPts_length_ge mf rest
      have hpos := sjoinMatches_length_pos (mf r)
      have h1 : (Gis.sjoinMatches (mf r)).length = 1 := by omega
      have h2 : (Gis.sjoinPts mf rest).length = rest.length := by omega
      intro x hx
      rcases List.mem_cons.mp hx with hx | hx
      · subst hx
        rcases hm : mf x with _ | ⟨m, t⟩
        · simp
        · rw [hm] at h1
          simp [Gis.sjoinMatches] at h1
          simp [h1]
      · exact (ih.mp h2) x hx
    · intro h
      have h1 : (mf r).length ≤ 1 := h r (by simp)
      have h2 : (Gis.sjoinPts mf rest).length = rest.length :=
        ih.mpr (fun x hx => h x (by simp [hx]))
      rw [sjoinMatches_eq_of_le (mf r) h1]
      simp only [List.length_singleton, h2]
      omega

theorem sjoinPts_eq_of_le {μ : Type} (mf : Gis.GRow → List μ) :
    ∀ rows : List Gis.GRow, (∀ r ∈ rows, (mf r).length ≤ 1) →
      Gis.sjoinPts mf rows = rows.map (fun r => (r, (mf r).head?)) := by
  intro rows
  induction rows with
  | nil => intro _; rfl
  | cons r rest ih =>
    intro h
    rw [sjoinPts_cons, sjoinMatches_eq_of_le (mf r) (h r (by simp)),
      ih (fun x hx => h x (by simp [hx]))]
    rfl

theorem add_shape_columns_ok_elim {μ : Type} (mf : Gis.GRow → List μ)
    (value : μ → Gis.GisCol → Option Str) (sc req : List Gis.GisCol)
    (f f2 : Gis.Frame)
    (h : Gis.add_shape_columns mf value sc req f = .ok f2) :
    (∀ r ∈ f.rows, (mf r).length ≤ 1)
    ∧ f2 = { added := f.added ++ req.inter sc, rows := f.rows.map (fun r => { r with cols := r.cols ++ (req.inter sc).map (fun c => (c, ((mf r).head?).bind (fun m => value m c))) }) } := by
  simp only [Gis.add_shape_columns] at h
  by_cases hlen : (Gis.sjoinPts mf f.rows).length = f.rows.length
  · rw [if_pos hlen] at h
    have hle := (sjoinPts_eq_iff mf f.rows).mp hlen
    refine ⟨hle, ?_⟩
    simp only [Except.ok.injEq] at h
    rw [← h, sjoinPts_eq_of_le mf f.rows hle, List.map_map]
    rfl
  · rw [if_neg hlen] at h
    simp at h

theorem zipStage_none {a : Gis.GISAnnotator} {f : Gis.Frame}
    (hz : a.zip_shapes = none) : Gis.zipStage a f = .ok (f, 0) := by
  unfold Gis.zipStage
  rw [hz]

theorem zipStage_some {a : Gis.GISAnnotator} {f : Gis.Frame} {l : Gis.ZipLayer}
    (hz : a.zip_shapes = some l) :
    Gis.zipStage a f =
      match Gis.add_shape_columns (fun r => Gis.lookupPt l r.base.x r.base.y) Gis.zipValue Gis.ZIP_COLUMNS a.columns f with
      | .ok f2 => .ok (f2, 1)
      | .error e => .error e := by
  unfold Gis.zipStage
  rw [hz]

theorem countyStage_none {a : Gis.GISAnnotator} {f : Gis.Frame}
    (hc : a.county_shapes = none) : Gis.countyStage a f = .ok (f, 0) := by
  unfold Gis.countyStage
  rw [hc]

theorem countyStage_some {a : Gis.GISAnnotator} {f : Gis.Frame}
    {l : Gis.CountyLayer} (hc : a.county_shapes = some l) :
    Gis.countyStage a f =
      match Gis.add_shape_columns (fun r => Gis.lookupPt l r.base.x r.base.y) Gis.countyValue Gis.COUNTY_COLUMNS a.columns f with
      | .ok f2 => .ok (f2, 1)
      | .error e => .error e := by
  unfold Gis.countyStage
  rw [hc]

theorem zipStage_ok_rows (a : Gis.GISAnnotator) (f : Gis.Frame)
    (z : Gis.Frame × Nat) (h : Gis.zipStage a f = .ok z) :
    z.1.rows = f.rows.map (fun r =>
      match a.zip_shapes with
      | some l => { r with cols := r.cols ++ (a.columns.inter Gis.ZIP_COLUMNS).map (fun c => (c, ((Gis.lookupPt l r.base.x r.base.y).head?).bind (fun m => Gis.zipValue m c))) }
      | none => r) := by
  rcases hz : a.zip_shapes with _ | l
  · rw [zipStage_none hz] at h
    simp only [Except.ok.injEq] at h
    rw [← h]
    simp
  · rw [zipStage_some hz] at h
    rcases ha : Gis.add_shape_columns (fun r => Gis.lookupPt l r.base.x r.base.y) Gis.zipValue Gis.ZIP_COLUMNS a.columns f with e | f2
    · rw [ha] at h
      simp at h
    · rw [ha] at h
      simp only [Except.ok.injEq] at h
      obtain ⟨-, hfr⟩ := add_shape_columns_ok_elim _ _ _ _ _ _ ha
      rw [← h, hfr]

theorem countyStage_ok_rows (a : Gis.GISAnnotator) (f : Gis.Frame)
    (w : Gis.Frame × Nat) (h : Gis.countyStage a f = .ok w) :
    w.1.rows = f.rows.map (fun r =>
      match a.county_shapes with
      | some l => { r with cols := r.cols ++ (a.columns.inter Gis.COUNTY_COLUMNS).map (fun c => (c, ((Gis.lookupPt l r.base.x r.base.y).head?).bind (fun m => Gis.countyValue m c))) }
      | none => r) := by
  rcases hc : a.county_shapes with _ | l
  · rw [countyStage_none hc] at h
    simp only [Except.ok.injEq] at h
    rw [← h]
    simp
  · rw [countyStage_some hc] at h
    rcases ha : Gis.add_shape_columns (fun r => Gis.lookupPt l r.base.x r.base.y) Gis.countyValue Gis.COUNTY_COLUMNS a.columns f with e | f2
    · rw [ha] at h
      simp at h
    · rw [ha] at h
      simp only [Except.ok.injEq] at h
      obtain ⟨-, hfr⟩ := add_shape_columns_ok_elim _ _ _ _ _ _ ha
      rw [← h, hfr]

theorem zipStage_ok_le (a : Gis.GISAnnotator) (f : Gis.Frame)
    (z : Gis.Frame × Nat) (h : Gis.zipStage a f = .ok z) :
    ∀ l, a.zip_shapes = some l →
      ∀ r ∈ f.rows, (Gis.lookupPt l r.base.x r.base.y).length ≤ 1 := by
  intro l hz
  rw [zipStage_some hz] at h
  rcases ha : Gis.add_shape_columns (fun r => Gis.lookupPt l r.base.x r.base.y) Gis.zipValue Gis.ZIP_COLUMNS a.columns f with e | f2
  · rw [ha] at h
    simp at h
  · exact (add_shape_columns_ok_elim _ _ _ _ _ _ ha).1

theorem countyStage_ok_le (a : Gis.GISAnnotator) (f : Gis.Frame)
    (w : Gis.Frame × Nat) (h : Gis.countyStage a f = .ok w) :
    ∀ l, a.county_shapes = some l →
      ∀ r ∈ f.rows, (Gis.lookupPt l r.base.x r.base.y).length ≤ 1 := by
  intro l hc
  rw [countyStage_some hc] at h
  rcases ha : Gis.add_shape_columns (fun r => Gis.lookupPt l r.base.x r.base.y) Gis.countyValue Gis.COUNTY_COLUMNS a.columns f with e | f2
  · rw [ha] at h
    simp at h
  · exact (add_shape_columns_ok_elim _ _ _ _ _ _ ha).1

theorem zipStage_ok_length (a : Gis.GISAnnotator) (f : Gis.Frame)
    (z : Gis.Frame × Nat) (h : Gis.zipStage a f = .ok z) :
    z.1.rows.length = f.rows.length := by
  rw [zipStage_ok_rows a f z h, List.length_map]

theorem countyStage_ok_length (a : Gis.GISAnnotator) (f : Gis.Frame)
    (w : Gis.Frame × Nat) (h : Gis.countyStage a f = .ok w) :
    w.1.rows.length = f.rows.length := by
  rw [countyStage_ok_rows a f w h, List.length_map]

theorem zipStage_ok_map_base (a : Gis.GISAnnotator) (f : Gis.Frame)
    (z : Gis.Frame × Nat) (h : Gis.zipStage a f = .ok z) :
    z.1.rows.map (fun r => r.base) = f.rows.map (fun r => r.base) := by
  rw [zipStage_ok_rows a f z h, List.map_map]
  apply List.map_congr_left
  intro r _
  cases hz : a.zip_shapes <;> simp

theorem countyStage_ok_map_base (a : Gis.GISAnnotator) (f : Gis.Frame)
    (w : Gis.Frame × Nat) (h : Gis.countyStage a f = .ok w) :
    w.1.rows.map (fun r => r.base) = f.rows.map (fun r => r.base) := by
  rw [countyStage_ok_rows a f w h, List.map_map]
  apply List.map_congr_left
  intro r _
  cases hc : a.county_shapes <;> simp

theorem add_calculated_rows (a : Gis.GISAnnotator) (f : Gis.Frame) :
    (Gis.add_calculated_columns a f).rows =
      if Gis.GisCol.STATEFP ∈ f.added then
        f.rows.map (fun r => { r with cols := r.cols ++ (Gis.CALC_ORDER.filter (fun c => c ∈ a.columns)).map (fun c => (c, Gis.calcValue a.states r c)) })
      else f.rows := by
  by_cases h : Gis.GisCol.STATEFP ∈ f.added <;>
    simp [Gis.add_calculated_columns, h]

theorem add_calculated_length (a : Gis.GISAnnotator) (f : Gis.Frame) :
    (Gis.add_calculated_columns a f).rows.length = f.rows.length := by
  rw [add_calculated_rows]
  by_cases h : Gis.GisCol.STATEFP ∈ f.added
  · rw [if_pos h, List.length_map]
  · rw [if_neg h]

theorem add_calculated_map_base (a : Gis.GISAnnotator) (f : Gis.Frame) :
    (Gis.add_calculated_columns a f).rows.map (fun r => r.base)
      = f.rows.map (fun r => r.base) := by
  rw [add_calculated_rows]
  by_cases h : Gis.GisCol.STATEFP ∈ f.added
  · rw [if_pos h, List.map_map]
    apply List.map_congr_left
    intro r _
    simp
  · rw [if_neg h]

theorem join_ok_elim (a : Gis.GISAnnotator) (f : Gis.Frame)
    (res : Gis.Frame × Gis.GISAnnotator × Gis.JoinLog)
    (hne : f.rows ≠ []) (hok : Gis.join a f = .ok res) :
    ∃ z w, Gis.zipStage (Gis.load_shape_files a) f = .ok z
      ∧ Gis.countyStage (Gis.load_shape_files a) z.1 = .ok w
      ∧ res.1 = Gis.add_calculated_columns (Gis.load_shape_files a) w.1 := by
  have hie : f.rows.isEmpty = false := by
    rcases hf : f.rows with _ | ⟨r, rs⟩
    · exact absurd hf hne
    · rfl
  unfold Gis.join at hok
  rw [hie] at hok
  simp only [Bool.false_eq_true, if_false] at hok
  rcases hchk : Gis.check_columns (Gis.load_shape_files a) with e | u
  · rw [hchk] at hok
    simp at hok
  · rw [hchk] at hok
    simp only [Except.ok.injEq] at hok
    rcases hz : Gis.zipStage (Gis.load_shape_files a) f with e | z
    · rw [hz] at hok
      simp at hok
    · rw [hz] at hok
      simp only [Except.ok.injEq] at hok
      rcases hw : Gis.countyStage (Gis.load_shape_files a) z.1 with e | w
      · rw [hw] at hok
        simp at hok
      · rw [hw] at hok
        simp only [Except.ok.injEq] at hok
        exact ⟨z, w, rfl, hw, by rw [← hok]⟩

theorem lookupCol_val_none (cols : List (Gis.GisCol × Option Str))
    (h : ∀ p ∈ cols, p.2 = none) (c : Gis.GisCol) :
    (Gis.lookupCol cols c).getD none = none := by
  induction cols with
  | nil => rfl
  | cons kv rest ih =>
    rcases kv with ⟨k, v⟩
    by_cases hk : k = c
    · subst hk
      have := h (k, v) (by simp)
      simp only at this
      simp [Gis.lookupCol, this]
    · simp only [Gis.lookupCol, hk, if_false]
      exact ih (fun p hp => h p (by simp [hp]))

theorem calcValue_none (states : Str → Str) (r : Gis.GRow)
    (h : ∀ p ∈ r.cols, p.2 = none) (c : Gis.GisCol) :
    Gis.calcValue states r c = none := by
  have hst : Gis.colValue r .STATEFP = none := lookupCol_val_none r.cols h _
  have hct : Gis.colValue r .COUNTYFP = none := lookupCol_val_none r.cols h _
  cases c <;> simp [Gis.calcValue, hst, hct]

theorem map_valfun_null (vf : Gis.GisCol → Option Str)
    (hv : ∀ c, vf c = none) (cols : List Gis.GisCol) :
    ∀ p ∈ cols.map (fun c => (c, vf c)), p.2 = none := by
  intro p hp
  rw [List.mem_map] at hp
  obtain ⟨c, _, rfl⟩ := hp
  exact hv c

/-- C6 counterexample: a non-empty one-point batch whose point intersects
two polygons of the configured zip layer. The left spatial join
duplicates the point's row, the rebuilt frame no longer matches the
input geometry list, and `join` raises the length-mismatch `ValueError`
instead of returning an annotated frame — so `join` does not preserve
the batch for every non-empty input. -/
theorem c6_counterexample :
    frameX.rows ≠ [] ∧ Gis.join gisaX frameX = .error .lengthMismatch := by
  constructor
  · simp [frameX, Gis.Frame.ofPoints]
  · rfl

/-- C6 (amended): for every non-empty input point batch — duplicates and
NaN coordinates included — on which `GISAnnotator.join` returns a frame
(equivalently, every point intersects at most one polygon in each loaded
layer; a multiply-matched point instead raises the length-mismatch
`ValueError` shown by the counterexample), the returned frame has
exactly as many rows as the input, in the same row order (the underlying
point rows are preserved one-to-one, none removed), every point of a
successful join does intersect at most one polygon per loaded layer, and
an input point that matches no polygon of any loaded layer gets `none`
(null) for every added geography column, rather than an error or a
removed row. -/
theorem c6_amended_join_preserves_rows (a : Gis.GISAnnotator) (f : Gis.Frame)
    (res : Gis.Frame × Gis.GISAnnotator × Gis.JoinLog)
    (hne : f.rows ≠ []) (hok : Gis.join a f = .ok res) :
    res.1.rows.length = f.rows.length
    ∧ res.1.rows.map (fun r => r.base) = f.rows.map (fun r => r.base)
    ∧ (∀ lz, (Gis.load_shape_files a).zip_shapes = some lz →
        ∀ r ∈ f.rows, (Gis.lookupPt lz r.base.x r.base.y).length ≤ 1)
    ∧ (∀ lc, (Gis.load_shape_files a).county_shapes = some lc →
        ∀ r ∈ f.rows, (Gis.lookupPt lc r.base.x r.base.y).length ≤ 1)
    ∧ ∀ i (hi : i < f.rows.length) (hi2 : i < res.1.rows.length),
        (f.rows.get ⟨i, hi⟩).cols = [] →
        (∀ lz, (Gis.load_shape_files a).zip_shapes = some lz →
          Gis.lookupPt lz (f.rows.get ⟨i, hi⟩).base.x
            (f.rows.get ⟨i, hi⟩).base.y = []) →
        (∀ lc, (Gis.load_shape_files a).county_shapes = some lc →
          Gis.lookupPt lc (f.rows.get ⟨i, hi⟩).base.x
            (f.rows.get ⟨i, hi⟩).base.y = []) →
        ∀ p ∈ (res.1.rows.get ⟨i, hi2⟩).cols, p.2 = none := by
  obtain ⟨z, w, hz, hw, hres⟩ := join_ok_elim a f res hne hok
  have hzr := zipStage_ok_rows _ _ _ hz
  have hwr := countyStage_ok_rows _ _ _ hw
  have hL : res.1.rows.length = f.rows.length := by
    rw [hres, add_calculated_length, countyStage_ok_length _ _ _ hw,
      zipStage_ok_length _ _ _ hz]
  refine ⟨hL, ?_, ?_, ?_, ?_⟩
  · rw [hres, add_calculated_map_base, countyStage_ok_map_base _ _ _ hw,
      zipStage_ok_map_base _ _ _ hz]
  · exact zipStage_ok_le _ _ _ hz
  · intro lc hc r hr
    have hbase := zipStage_ok_map_base _ _ _ hz
    have hmem : r.base ∈ z.1.rows.map (fun r => r.base) := by
      rw [hbase]
      exact List.mem_map_of_mem _ hr
    obtain ⟨r2, hr2, hbr⟩ := List.mem_map.mp hmem
    have := countyStage_ok_le _ _ _ hw lc hc r2 hr2
    rwa [hbr] at this
  · intro i hi hi2 hcols hz0 hc0 p hp
    have hi1 : i < z.1.rows.length := by
      rw [zipStage_ok_length _ _ _ hz]
      exact hi
    have hiw : i < w.1.rows.length := by
      rw [countyStage_ok_length _ _ _ hw, zipStage_ok_length _ _ _ hz]
      exact hi
    have e1 : z.1.rows.get ⟨i, hi1⟩
        = (fun r =>
            match (Gis.load_shape_files a).zip_shapes with
            | some l => { r with cols := r.cols ++ ((Gis.load_shape_files a).columns.inter Gis.ZIP_COLUMNS).map (fun c => (c, ((Gis.lookupPt l r.base.x r.base.y).head?).bind (fun m => Gis.zipValue m c))) }
            | none => r) (f.rows.get ⟨i, hi⟩) := by
      simp only [List.get_eq_getElem]
      simp only [hzr, List.getElem_map]
    have hbase1 : (z.1.rows.get ⟨i, hi1⟩).base = (f.rows.get ⟨i, hi⟩).base := by
      rw [e1]
      cases hzz : (Gis.load_shape_files a).zip_shapes <;> simp
    have hnull1 : ∀ q ∈ (z.1.rows.get ⟨i, hi1⟩).cols, q.2 = none := by
      rw [e1]
      cases hzz : (Gis.load_shape_files a).zip_shapes with
      | none =>
        simp only [hcols]
        intro q hq
        simp at hq
      | some l =>
        simp only [hcols, List.nil_append]
        refine map_valfun_null _ ?_ _
        intro c
        rw [hz0 l hzz]
        rfl
    have e2 : w.1.rows.get ⟨i, hiw⟩
        = (fun r =>
            match (Gis.load_shape_files a).county_shapes with
            | some l => { r with cols := r.cols ++ ((Gis.load_shape_files a).columns.inter Gis.COUNTY_COLUMNS).map (fun c => (c, ((Gis.lookupPt l r.base.x r.base.y).head?).bind (fun m => Gis.countyValue m c))) }
            | none => r) (z.1.rows.get ⟨i, hi1⟩) := by
      simp only [List.get_eq_getElem]
      simp only [hwr, List.getElem_map]
    have hnull2 : ∀ q ∈ (w.1.rows.get ⟨i, hiw⟩).cols, q.2 = none := by
      rw [e2]
      cases hcc : (Gis.load_shape_files a).county_shapes with
      | none => exact hnull1
      | some l =>
        intro q hq
        simp only [List.mem_append] at hq
        rcases hq with hq | hq
        · exact hnull1 q hq
        · refine map_valfun_null _ ?_ _ q hq
          intro c
          rw [hbase1, hc0 l hcc]
          rfl
    have e3 : res.1.rows.get ⟨i, hi2⟩
        = (if Gis.GisCol.STATEFP ∈ w.1.added then
            (fun r => { r with cols := r.cols ++ (Gis.CALC_ORDER.filter (fun c => c ∈ (Gis.load_shape_files a).columns)).map (fun c => (c, Gis.calcValue (Gis.load_shape_files a).states r c)) })
          else id) (w.1.rows.get ⟨i, hiw⟩) := by
      by_cases hst : Gis.GisCol.STATEFP ∈ w.1.added
      · simp only [List.get_eq_getElem, hres, add_calculated_rows, if_pos hst,
          List.getElem_map]
      · simp only [List.get_eq_getElem, hres, add_calculated_rows, if_neg hst,
          id_eq]
    rw [e3] at hp
    by_cases hst : Gis.GisCol.STATEFP ∈ w.1.added
    · rw [if_pos hst] at hp
      simp only [List.mem_append] at hp
      rcases hp with hp | hp
      · exact hnull2 p hp
      · exact map_valfun_null _ (calcValue_none _ _ hnull2) _ p hp
    · rw [if_neg hst] at hp
      simp only [id_eq] at hp
      exact hnull2 p hp

/-- Witness for C6 on the concrete two-point batch (one point matching a
single polygon, one NaN point). -/
theorem c6_witness :
    frameW.rows ≠ []
    ∧ Gis.join gisaW frameW = .ok resW
    ∧ resW.1.rows.length = frameW.rows.length
    ∧ resW.1.rows.map (fun r => r.base) = frameW.rows.map (fun r => r.base) := by
  have hne : frameW.rows ≠ [] := by simp [frameW, Gis.Frame.ofPoints]
  have hok : Gis.join gisaW frameW = .ok resW := rfl
  obtain ⟨h1, h2, h3⟩ := c6_amended_join_preserves_rows gisaW frameW resW hne hok
  exact ⟨hne, hok, h1, h2⟩


/-! ## C1 — year segmentation -/

theorem segLoop_flatten (merge : Bool) :
    ∀ (rest : List Int) (prev : Int) (cur : List Int) (acc : List (List Int)),
      (Aqs.segLoop merge prev cur acc rest).flatten = acc.flatten ++ cur ++ rest := by
  intro rest
  induction rest with
  | nil =>
    intro prev cur acc
    simp [Aqs.segLoop]
  | cons y ys ih =>
    intro prev cur acc
    cases hb : (merge && (prev == y - 1)) with
    | true =>
      simp only [Aqs.segLoop, hb, if_true]
      rw [ih]
      simp
    | false =>
      simp only [Aqs.segLoop, hb, Bool.false_eq_true, if_false]
      rw [ih]
      simp

theorem segLoop_false :
    ∀ (rest : List Int) (prev : Int) (cur : List Int) (acc : List (List Int)),
      Aqs.segLoop false prev cur acc rest
        = acc ++ [cur] ++ rest.map (fun y => [y]) := by
  intro rest
  induction rest with
  | nil =>
    intro prev cur acc
    simp [Aqs.segLoop]
  | cons y ys ih =>
    intro prev cur acc
    simp only [Aqs.segLoop, Bool.false_and, Bool.false_eq_true, if_false]
    rw [ih]
    simp

theorem head_append_ne_nil {α : Type} {l : List α} (l' : List α) (h : l ≠ []) :
    (l ++ l').head? = l.head? := by
  rcases l with _ | ⟨a, t⟩
  · exact absurd rfl h
  · rfl

theorem segLoop_true_spec :
    ∀ (rest : List Int) (prev : Int) (cur : List Int) (acc : List (List Int)),
      List.Chain' (· < ·) (prev :: rest) →
      cur ≠ [] →
      cur.getLast? = some prev →
      List.Chain' (fun a b => b = a + 1) cur →
      (∀ s ∈ acc, s ≠ [] ∧ List.Chain' (fun a b => b = a + 1) s) →
      List.Chain' (fun s t => ∀ x y, s.getLast? = some x → t.head? = some y →
        y ≠ x + 1) (acc ++ [cur]) →
      (∀ s ∈ Aqs.segLoop true prev cur acc rest,
          s ≠ [] ∧ List.Chain' (fun a b => b = a + 1) s)
      ∧ List.Chain' (fun s t => ∀ x y, s.getLast? = some x → t.head? = some y →
          y ≠ x + 1) (Aqs.segLoop true prev cur acc rest) := by
  intro rest
  induction rest with
  | nil =>
    intro prev cur acc hchain hcne hclast hcc hacc hbreak
    simp only [Aqs.segLoop]
    refine ⟨?_, hbreak⟩
    intro s hs
    rw [List.mem_append] at hs
    rcases hs with hs | hs
    · exact hacc s hs
    · rw [List.mem_singleton] at hs
      subst hs
      exact ⟨hcne, hcc⟩
  | cons y ys ih =>
    intro prev cur acc hchain hcne hclast hcc hacc hbreak
    have hlt : prev < y := by
      have := List.chain'_cons'.mp hchain
      exact this.1 y rfl
    have htail : List.Chain' (· < ·) (y :: ys) :=
      (List.chain'_cons'.mp hchain).2
    by_cases hpy : prev = y - 1
    · have hb : (true && (prev == y - 1)) = true := by
        simp [hpy]
      simp only [Aqs.segLoop, hb, if_true]
      apply ih y (cur ++ [y]) acc htail (by simp)
        (List.getLast?_concat cur)
      · rw [List.chain'_append]
        refine ⟨hcc, List.chain'_singleton y, ?_⟩
        intro x hx z hz
        rw [hclast] at hx
        simp only [Option.mem_def, Option.some.injEq] at hx
        simp only [List.head?_cons, Option.mem_def, Option.some.injEq] at hz
        subst hx
        subst hz
        omega
      · exact hacc
      · -- boundary chain with the extended current segment
        rw [List.chain'_append] at hbreak ⊢
        obtain ⟨hA, _, hX⟩ := hbreak
        refine ⟨hA, List.chain'_singleton _, ?_⟩
        intro s hs t ht
        simp only [List.head?_cons, Option.mem_def, Option.some.injEq] at ht
        subst ht
        intro x z hx hz
        rw [head_append_ne_nil [y] hcne] at hz
        exact hX s hs cur (by simp) x z hx hz
    · have hb : (true && (prev == y - 1)) = false := by
        simp [hpy]
      simp only [Aqs.segLoop, hb, Bool.false_eq_true, if_false]
      apply ih y [y] (acc ++ [cur]) htail (by simp) (by simp) (by simp)
      · intro s hs
        rw [List.mem_append] at hs
        rcases hs with hs | hs
        · exact hacc s hs
        · rw [List.mem_singleton] at hs
          subst hs
          exact ⟨hcne, hcc⟩
      · rw [List.chain'_append]
        refine ⟨hbreak, List.chain'_singleton _, ?_⟩
        intro s hs t ht
        simp only [List.head?_cons, Option.mem_def, Option.some.injEq] at ht
        subst ht
        rw [List.getLast?_concat] at hs
        simp only [Option.mem_def, Option.some.injEq] at hs
        subst hs
        intro x z hx hz
        rw [hclast] at hx
        simp only [Option.some.injEq] at hx
        simp only [List.head?_cons, Option.some.injEq] at hz
        subst hx
        subst hz
        omega

theorem foldl_append_singleton {α β : Type} (f : β → α) :
    ∀ (l : List β) (init : List α),
      l.foldl (fun acc y => acc ++ [f y]) init = init ++ l.map f := by
  intro l
  induction l with
  | nil => intro init; simp
  | cons b t ih =>
    intro init
    rw [List.foldl_cons, ih]
    simp

/-- C1 counterexample: a configuration whose years form the empty set of
integers makes `collect_aqs_download_tasks` raise `IndexError` at
`years[0]`, rather than produce the (empty) partition with one singleton
segment per requested year. -/
theorem c1_counterexample :
    Aqs.collect_aqs_download_tasks
        { aggregation := .annual, parameters := [], years := [],
          merge_years := false }
      = .error .indexError
    ∧ ∀ tasks, Aqs.collect_aqs_download_tasks
        { aggregation := .annual, parameters := [], years := [],
          merge_years := false } ≠ .ok tasks := by
  have h : Aqs.collect_aqs_download_tasks
      { aggregation := .annual, parameters := [], years := [],
        merge_years := false } = .error .indexError := by
    unfold Aqs.collect_aqs_download_tasks
    simp [Aqs.contiguous_years]
  refine ⟨h, fun tasks hc => ?_⟩
  rw [h] at hc
  exact Except.noConfusion hc

/-- C1 amended: for every configuration whose years form a NON-EMPTY set
of integers, `collect_aqs_download_tasks` partitions the sorted years:
with `merge_years = false` into exactly one singleton segment per
requested year; with `merge_years = true` into maximal runs of strictly
consecutive integers, with a segment boundary exactly where the sorted
year sequence is non-consecutive; segments are emitted in ascending year
order (their concatenation is the sorted year list), and for annual
aggregation the produced task list has exactly one task per segment, in
segment order. -/
theorem c1_amended_segmentation (merge : Bool) (years : List Int)
    (hne : years ≠ []) (hnd : years.Nodup) :
    ∃ S, Aqs.contiguous_years merge years.mergeSort = some S
    ∧ S.flatten = years.mergeSort
    ∧ (∀ s ∈ S, s ≠ [])
    ∧ (merge = false → S = years.mergeSort.map (fun y => [y]))
    ∧ (merge = true →
        (∀ s ∈ S, List.Chain' (fun a b => b = a + 1) s)
        ∧ List.Chain' (fun s t => ∀ x y, s.getLast? = some x →
            t.head? = some y → y ≠ x + 1) S)
    ∧ ∀ params : List Nat,
        Aqs.collect_aqs_download_tasks
            { aggregation := .annual, parameters := params, years := years,
              merge_years := merge }
          = .ok (S.map (fun seg =>
              Aqs.collect_annual_downloads seg params.mergeSort)) := by
  have hsorted : List.Sorted (· ≤ ·) years.mergeSort :=
    List.sorted_mergeSort' years
  have hLnd : years.mergeSort.Nodup :=
    (List.mergeSort_perm years _).nodup_iff.mpr hnd
  have hpl : years.mergeSort.Pairwise (· < ·) :=
    (hsorted.and hLnd).imp (fun h => lt_of_le_of_ne h.1 h.2)
  have hLne : years.mergeSort ≠ [] := by
    intro hc
    have := List.mergeSort_perm years (fun a b => a ≤ b)
    rw [hc] at this
    exact hne (this.nil_eq).symm
  rcases hL : years.mergeSort with _ | ⟨y0, ys⟩
  · exact absurd hL hLne
  rw [hL]
  refine ⟨Aqs.segLoop merge y0 [y0] [] ys, rfl, ?_, ?_, ?_, ?_, ?_⟩
  · rw [segLoop_flatten]
    simp
  · intro s hs
    cases merge with
    | false =>
      rw [segLoop_false] at hs
      simp only [List.nil_append, List.cons_append, List.mem_cons,
        List.mem_map] at hs
      rcases hs with rfl | ⟨y, _, rfl⟩ <;> simp
    | true =>
      have hch : List.Chain' (· < ·) (y0 :: ys) := by
        rw [← hL]
        exact hpl.chain'
      exact ((segLoop_true_spec ys y0 [y0] [] hch (by simp) (by simp)
        (List.chain'_singleton y0) (by simp) (by simp)).1 s hs).1
  · intro hm
    subst hm
    rw [segLoop_false]
    simp [List.map_cons]
  · intro hm
    subst hm
    have hch : List.Chain' (· < ·) (y0 :: ys) := by
      rw [← hL]
      exact hpl.chain'
    obtain ⟨h1, h2⟩ := segLoop_true_spec ys y0 [y0] [] hch (by simp) (by simp)
      (List.chain'_singleton y0) (by simp) (by simp)
    exact ⟨fun s hs => (h1 s hs).2, by simpa using h2⟩
  · intro params
    unfold Aqs.collect_aqs_download_tasks
    simp only [reduceCtorEq, false_and, if_false, hL, Aqs.contiguous_years]
    simp only [Aqs.tasksOfSegment]
    rw [foldl_append_singleton]
    simp

/-- Witness for C1 on the specification's own example year set. -/
theorem c1_witness :
    ([1998, 1999, 2011, 2015, 2016, 2017] : List Int) ≠ []
    ∧ ([1998, 1999, 2011, 2015, 2016, 2017] : List Int).Nodup
    ∧ Aqs.contiguous_years true
        ([1998, 1999, 2011, 2015, 2016, 2017] : List Int).mergeSort
        = some [[1998, 1999], [2011], [2015, 2016, 2017]]
    ∧ ∃ S, Aqs.contiguous_years true
          ([1998, 1999, 2011, 2015, 2016, 2017] : List Int).mergeSort = some S
        ∧ S.flatten = ([1998, 1999, 2011, 2015, 2016, 2017] : List Int).mergeSort
        ∧ (∀ s ∈ S, s ≠ [])
        ∧ (true = false → S = ([1998, 1999, 2011, 2015, 2016, 2017] :
            List Int).mergeSort.map (fun y => [y]))
        ∧ (true = true →
            (∀ s ∈ S, List.Chain' (fun a b => b = a + 1) s)
            ∧ List.Chain' (fun s t => ∀ x y, s.getLast? = some x →
                t.head? = some y → y ≠ x + 1) S)
        ∧ ∀ params : List Nat,
            Aqs.collect_aqs_download_tasks
                { aggregation := .annual, parameters := params,
                  years := [1998, 1999, 2011, 2015, 2016, 2017],
                  merge_years := true }
              = .ok (S.map (fun seg =>
                  Aqs.collect_annual_downloads seg params.mergeSort)) := by
  refine ⟨by decide, by decide, ?_,
    c1_amended_segmentation true _ (by decide) (by decide)⟩
  rw [List.mergeSort_eq_self (by decide)]
  decide

end Epa
